import Mathlib

/-!
# Verification of the voice-agent session orchestrator

Shallow embedding of the per-session streaming pipeline orchestrator from
`main.py` and of the Murf TTS WebSocket adapter from
`services/murf_websocket_service.py`, together with proofs about duplicate
detection, queueing, playback, fallback and context lifecycle.

Conventions of the embedding:
* Python strings are Lean `String`s; Python's `\w` character class is modelled
  on its ASCII fragment (letters, digits and underscore), and Python's string
  whitespace by the six ASCII whitespace characters.
* Wall-clock timestamps (`datetime.now().timestamp()`) are rationals.
* Per-session mutable dictionaries (`session_processing`,
  `session_queues`, ...) are collected, for one fixed session id, into a
  `SessionState` record; a missing dictionary entry is represented by the
  documented `get` default (`False`, `""`, `0`, `None`, `[]`).
* The serialized per-session execution of `handle_llm_streaming` and
  `process_session_queue` is modelled as a pure interpreter producing the list
  of client-visible frames (`Event`s) and the final session state.  The
  behaviour of the three remote services is an `Oracle`: the LLM text chunks,
  the sequence of Murf audio responses delivered before the 45 s deadline,
  and the outcomes of the non-streaming fallback TTS call.
* `database_service` is assumed configured (history calls catch their own
  errors and never change the client-visible control flow).
-/

namespace VoiceAgent

/-! ## Characters and Python string primitives -/

/-- ASCII fragment of Python's `\w` class used by `re.sub(r'[^\w\s]', ...)`:
letters, digits and the underscore. -/
def isWordChar (c : Char) : Bool :=
  c.isAlphanum || c == '_'

/-- Python string whitespace (`str.split`, `str.strip`, `\s`):
space, tab, newline, carriage return, vertical tab, form feed. -/
def isSpaceChar (c : Char) : Bool :=
  c == ' ' || c == '\t' || c == '\n' || c == '\r' || c.val == 11 || c.val == 12

/-- `text.lower()` on the ASCII fragment. -/
def pyLowerList (l : List Char) : List Char :=
  l.map Char.toLower

/-- `re.sub(r'[^\w\s]', ' ', text)`: replace every character that is neither a
word character nor whitespace by a single space. -/
def subNonWordList (l : List Char) : List Char :=
  l.map fun c => if ¬ isWordChar c ∧ ¬ isSpaceChar c then ' ' else c

/-- Drop characters satisfying `p` from both ends (Python `str.strip`). -/
def stripEdges (p : Char → Bool) (l : List Char) : List Char :=
  ((l.dropWhile p).reverse.dropWhile p).reverse

/-- Python `str.split()` with no separator: split on runs of whitespace,
dropping empty pieces.  `acc` holds the current word reversed. -/
def splitWordsAux : List Char → List Char → List (List Char)
  | [], acc => if acc = [] then [] else [acc.reverse]
  | c :: cs, acc =>
    if isSpaceChar c then
      if acc = [] then splitWordsAux cs []
      else acc.reverse :: splitWordsAux cs []
    else splitWordsAux cs (c :: acc)

def splitWords (l : List Char) : List (List Char) :=
  splitWordsAux l []

/-- `' '.join(words)` at the character level. -/
def joinSpace : List (List Char) → List Char
  | [] => []
  | [w] => w
  | w :: ws => w ++ ' ' :: joinSpace ws

/-- `' '.join(text.split())`: collapse whitespace runs and trim. -/
def collapseWs (l : List Char) : List Char :=
  joinSpace (splitWords l)

/-- Python `text.strip()`. -/
def pyStrip (t : String) : String :=
  ⟨stripEdges isSpaceChar t.data⟩

/-! ## `normalize_query_text` (main.py lines 490-502) -/

/-- `normalize_query_text`: empty in, empty out; otherwise lowercase,
replace `[^\w\s]` by a space, collapse whitespace, trim. -/
def normalize_query_text (text : String) : String :=
  if text = "" then ""
  else ⟨collapseWs (subNonWordList (pyLowerList text.data))⟩

/-- The punctuation-and-space set of `strip('.,!?;: ')` used by the secondary
2-second exact-duplicate check inside `handle_llm_streaming`. -/
def punctEdge (c : Char) : Bool :=
  c == '.' || c == ',' || c == '!' || c == '?' || c == ';' || c == ':' || c == ' '

/-- `clean_current` of the 2-second exact-duplicate check
(main.py lines 840-842): lowercase, strip `'.,!?;: '`, substitute, collapse. -/
def cleanExact (t : String) : String :=
  ⟨collapseWs (subNonWordList (stripEdges punctEdge (pyLowerList t.data)))⟩

/-- `clean_last` of the same check (lines 845-849): computed only when the
lowered-and-stripped last transcript is truthy, else the empty string. -/
def cleanExactLast (t : String) : String :=
  if stripEdges punctEdge (pyLowerList t.data) = [] then "" else cleanExact t

/-! ## Session state (the per-session slices of the global dicts) -/

/-- One entry of `session_queues[session_id]` (main.py lines 1608-1613). -/
structure QueueItem where
  text : String
  persona : String
  webSearch : Bool
  deriving DecidableEq

/-- The per-session slice of the orchestrator's global dictionaries.
A field holds the dictionary's `get` default when the key is absent. -/
structure SessionState where
  processing : Bool
  queue : List QueueItem
  currentQuery : Option String
  responsePlayed : Bool
  bufferCleared : Bool
  ttsCompleted : Bool
  ttsActive : Bool
  responses : Option String
  lastTranscript : String
  lastTime : ℚ
  personaChanged : Bool
  activeTtsTask : Bool
  deriving DecidableEq

/-- A session no dictionary has an entry for yet. -/
def freshSession : SessionState :=
  { processing := false, queue := [], currentQuery := none,
    responsePlayed := false, bufferCleared := false, ttsCompleted := false,
    ttsActive := false, responses := none, lastTranscript := "",
    lastTime := 0, personaChanged := false, activeTtsTask := false }

/-! ## `is_duplicate_query` (main.py lines 516-562) -/

/-- `is_duplicate_query`: empty normalization is always a duplicate; then the
currently-processing query (both the played and the not-yet-played sub-case
return `True`), then the queued queries, then the last processed transcript
within a 15-second window. -/
def is_duplicate_query (s : SessionState) (now : ℚ) (queryText : String) : Bool :=
  let normalizedQuery := normalize_query_text queryText
  if normalizedQuery = "" then true
  else if (match s.currentQuery with
           | some currentQuery =>
             decide (currentQuery ≠ "") && (normalize_query_text currentQuery == normalizedQuery)
           | none => false) then
    (if s.responsePlayed ∨ s.ttsCompleted then true else true)
  else if s.queue.any fun it => normalize_query_text it.text == normalizedQuery then true
  else if s.lastTranscript ≠ "" ∧ normalize_query_text s.lastTranscript = normalizedQuery
      ∧ now - s.lastTime < 15 then true
  else false

/-! ## Murf WebSocket adapter state (services/murf_websocket_service.py) -/

/-- The adapter's tracked state: connection flag, the set of context ids it
tracks (`active_contexts`, modelled as a duplicate-free list) and
`current_context_id`. -/
structure MurfState where
  isConnected : Bool
  activeContexts : List String
  currentContextId : Option String
  deriving DecidableEq

/-- `_clear_specific_context` (lines 400-430).  `ok` says whether the
clear-frame round trip raised; the body catches every exception itself, and an
exception raised before line 424 leaves the tracking untouched.  With no
connection the function returns immediately without discarding. -/
def clear_specific_context (st : MurfState) (ok : Bool) (ctx : String) : MurfState :=
  if st.isConnected = false then st
  else if ok then
    { st with
      activeContexts := st.activeContexts.filter fun c => c ≠ ctx,
      currentContextId := if st.currentContextId = some ctx then none else st.currentContextId }
  else st

/-- `_clear_all_contexts` (lines 432-450): best-effort clear of each tracked
context over a copy of the set (the per-iteration `except` discard is dead code
because `_clear_specific_context` never raises), then a forced
`active_contexts.clear()` and `current_context_id = None`. -/
def clear_all_contexts (st : MurfState) (ok : String → Bool) : MurfState :=
  let looped := st.activeContexts.foldl (fun acc ctx => clear_specific_context acc (ok ctx) ctx) st
  { looped with activeContexts := [], currentContextId := none }

/-- A reply the Murf socket can deliver to the voice-config `recv` at
lines 104-116: a normal acknowledgement, the `Exceeded Active context limit`
error, or any other message; an exhausted script stands for the 3 s
acknowledgement timeout (non-fatal, proceed). -/
inductive MurfResp where
  | ack
  | limitError
  | otherMsg
  deriving DecidableEq

/-- Fresh context identifiers as generated at lines 78 and 113. -/
def ctxName (n : Nat) : String :=
  "voice_agent_context_" ++ toString n

/-- `_send_voice_config` (lines 74-123) against a script of socket replies.
Arguments: clear outcomes `ok`, current state, the context id for this
attempt, the next fresh-id index, the reply script.  Returns the final state
and the number of voice-config frames sent (the initial send plus one per
retry).  On `limitError` the code clears all contexts and calls itself again
with a fresh id, consuming the rest of the script. -/
def send_voice_config (ok : String → Bool) :
    MurfState → String → Nat → List MurfResp → MurfState × Nat
  | st, ctxId, fresh, script =>
    let st1 := if st.activeContexts ≠ [] then clear_all_contexts st ok else st
    let st2 := { st1 with
      currentContextId := some ctxId,
      activeContexts := st1.activeContexts ++ [ctxId] }
    match script with
    | [] => (st2, 1)
    | MurfResp.limitError :: rest =>
      let st3 := clear_all_contexts st2 ok
      let next := send_voice_config ok st3 (ctxName fresh) (fresh + 1) rest
      (next.1, next.2 + 1)
    | MurfResp.ack :: _ => (st2, 1)
    | MurfResp.otherMsg :: _ => (st2, 1)

/-- Number of consecutive `limitError` replies at the head of a script: the
number of retries `_send_voice_config` performs. -/
def leadingLimitErrors : List MurfResp → Nat
  | MurfResp.limitError :: rest => leadingLimitErrors rest + 1
  | _ => 0

/-! ## Client-visible frames and remote-service oracles -/

/-- The text frames `handle_llm_streaming`, `process_session_queue` and the
transcription callback send to the client (`type` field of the JSON frame,
with the payload components the claims are about). -/
inductive Event where
  | llmStreamingStart (userMessage : String)
  | llmStreamingChunk (chunk : String)
  | responseSaved
  | ttsStreamingStart
  | ttsAudioChunk (isFinal : Bool)
  | ttsTimeoutWarning
  | ttsStatus
  | ttsTimeout
  | ttsFallbackAudio
  | ttsStreamingTimeout
  | ttsStreamingError
  | llmStreamingComplete
  | sessionReset
  | llmStreamingError
  | audioStop
  | queryQueued (queuePosition : Nat)
  | apiKeysRequired
  | webSearchStart
  | webSearchComplete
  | webSearchError
  deriving DecidableEq

/-- One yielded item of `stream_text_to_audio` /
`_listen_for_audio_with_timeout`: an audio chunk (final or not), a 30 s recv
timeout, a non-audio status message, or an error message from Murf. -/
inductive AudioResp where
  | chunk (isFinal : Bool)
  | timeout
  | status
  | errorResp
  deriving DecidableEq

/-- How the awaited TTS streaming ends: the final chunk arrived (`success`),
an exception was raised inside the stream (`raised` — Murf error frame, too
many recv timeouts, or the LLM generator raising on an empty response), or
the stream was still pending when the 45 s `asyncio.wait_for` fired
(`hung`). -/
inductive TTSExit where
  | success
  | raised
  | hung
  deriving DecidableEq

/-- The behaviour of the remote services during one utterance: the LLM chunk
stream, the Murf audio responses delivered before the 45 s deadline, whether
`tts_service` (the non-streaming fallback) is configured, whether its
`generate_speech` call returns an audio url, and the web-search service
configuration and outcome. -/
structure Oracle where
  llmChunks : List String
  audioResps : List AudioResp
  ttsAvail : Bool
  fallbackOk : Bool
  webConfigured : Bool
  webOk : Bool

/-! ## The TTS receive loop (`process_tts`, main.py lines 1033-1102, driving
`stream_text_to_audio` / `_listen_for_audio_with_timeout`) -/

/-- Iterate the delivered audio responses: forward audio chunks (marking the
response played, completed and the buffer cleared on the final one, then
breaking), count recv timeouts (raising at the second), forward status
frames, raise on a Murf error frame.  An exhausted list without an exit means
the loop was still waiting when the 45 s deadline fired. -/
def audioLoop (s : SessionState) : List AudioResp → Nat → List Event × SessionState × TTSExit
  | [], _ => ([], s, TTSExit.hung)
  | AudioResp.chunk true :: _, _ =>
    let s1 := { s with responsePlayed := true, ttsCompleted := true }
    let s2 :=
      match s1.responses with
      | some _ => { s1 with responses := none, bufferCleared := true }
      | none => s1
    ([Event.ttsAudioChunk true], s2, TTSExit.success)
  | AudioResp.chunk false :: rest, tc =>
    let next := audioLoop s rest tc
    (Event.ttsAudioChunk false :: next.1, next.2)
  | AudioResp.timeout :: rest, tc =>
    if tc + 1 ≥ 2 then ([], s, TTSExit.raised)
    else
      let next := audioLoop s rest (tc + 1)
      (Event.ttsTimeoutWarning :: next.1, next.2)
  | AudioResp.status :: rest, tc =>
    let next := audioLoop s rest tc
    (Event.ttsStatus :: next.1, next.2)
  | AudioResp.errorResp :: _, _ => ([], s, TTSExit.raised)

/-! ## Error handlers, completion and cleanup of `handle_llm_streaming` -/

/-- Failure tail of the streaming-error fallback (lines 1268-1287): emit
`tts_streaming_error`, clear the processing flag, drop the buffer and set
`bufferCleared` when a buffer entry exists, then process the queue.  The
played flag is not touched here. -/
def ttsErrorFailure (drain : SessionState → List Event × SessionState) (s : SessionState) :
    List Event × SessionState :=
  let s1 := { s with processing := false }
  let s2 :=
    match s1.responses with
    | some _ => { s1 with responses := none, bufferCleared := true }
    | none => s1
  let next := drain s2
  (Event.ttsStreamingError :: next.1, next.2)

/-- The `except Exception` handler around the Murf streaming
(lines 1230-1287): one fallback attempt through the non-streaming TTS path
when a response is buffered and not yet played; on success emit
`tts_fallback_audio` and set only the played flag. -/
def ttsErrorHandler (drain : SessionState → List Event × SessionState) (o : Oracle)
    (s : SessionState) : List Event × SessionState :=
  let currentResponse := pyStrip (s.responses.getD "")
  if o.ttsAvail ∧ currentResponse ≠ "" ∧ s.responsePlayed = false then
    if o.fallbackOk then
      ([Event.ttsFallbackAudio], { s with responsePlayed := true })
    else ttsErrorFailure drain s
  else ttsErrorFailure drain s

/-- Failure tail of the 45 s timeout fallback (lines 1197-1229): emit
`tts_streaming_timeout`, clear the processing flag, drop the buffer, set both
`bufferCleared` and `responsePlayed`, process the queue, emit
`session_reset`. -/
def ttsTimeoutFailure (drain : SessionState → List Event × SessionState) (s : SessionState) :
    List Event × SessionState :=
  let s1 := { s with processing := false, responses := none,
                     bufferCleared := true, responsePlayed := true }
  let next := drain s1
  (Event.ttsStreamingTimeout :: next.1 ++ [Event.sessionReset], next.2)

/-- The `except asyncio.TimeoutError` handler (lines 1115-1229): emit the
`tts_timeout` notice, then a single guarded fallback attempt; replay is
refused when the response was already played or the buffer cleared. -/
def ttsTimeoutHandler (drain : SessionState → List Event × SessionState) (o : Oracle)
    (s : SessionState) : List Event × SessionState :=
  let currentResponse := pyStrip (s.responses.getD "")
  let inner :=
    if s.responsePlayed ∨ s.bufferCleared then ttsTimeoutFailure drain s
    else if o.ttsAvail ∧ currentResponse ≠ "" then
      if o.fallbackOk then
        let s1 := { s with responsePlayed := true, ttsCompleted := true }
        let s2 :=
          match s1.responses with
          | some _ => { s1 with responses := none, bufferCleared := true }
          | none => s1
        let s3 := { s2 with processing := false }
        let next := drain s3
        (Event.ttsFallbackAudio :: next.1, next.2)
      else ttsTimeoutFailure drain s
    else ttsTimeoutFailure drain s
  (Event.ttsTimeout :: inner.1, inner.2)

/-- Lines 1294-1344: emit `llm_streaming_complete`, final guaranteed buffer
clear, full per-query state reset, process the queue, emit `session_reset`. -/
def completionPhase (drain : SessionState → List Event × SessionState) (s : SessionState) :
    List Event × SessionState :=
  let s1 :=
    if s.responses.isSome ∧ s.bufferCleared = false then
      { s with responses := none, bufferCleared := true }
    else s
  let s2 := { s1 with processing := false, currentQuery := none,
                      responsePlayed := false, bufferCleared := false,
                      ttsCompleted := false, ttsActive := false }
  let next := drain s2
  (Event.llmStreamingComplete :: next.1 ++ [Event.sessionReset], next.2)

/-- The `finally` block (lines 1377-1471): cancel any TTS task, delete every
per-session tracking entry (duplicate-detection data, queue, buffers, flags).
The processing flag itself is not touched here. -/
def finallyPhase (s : SessionState) : SessionState :=
  { s with lastTranscript := "", lastTime := 0, personaChanged := false,
           queue := [], currentQuery := none, responses := none,
           responsePlayed := false, bufferCleared := false,
           ttsCompleted := false, ttsActive := false, activeTtsTask := false }

/-! ## `handle_llm_streaming` (main.py lines 698-1471) -/

/-- The per-chunk buffer updates of the LLM generator: after the text
collection loop `session_responses[sid]` holds the concatenation of the
non-empty chunks. -/
def llmCollectState (o : Oracle) (s4 : SessionState) : SessionState :=
  { s4 with responses := some (String.join (o.llmChunks.filter fun c => c ≠ "")) }

/-- The streaming part of the TTS phase (lines 1010-1344): the second
`tts_completed` guard, the lazy consumption of the LLM generator inside
`stream_text_to_audio` (emitting the chunk frames and `response_saved`), the
audio receive loop, the two exception handlers and the completion step.  The
caller applies the `finally` cleanup. -/
def ttsStreamPhase (drain : SessionState → List Event × SessionState) (o : Oracle)
    (s4 : SessionState) : List Event × SessionState :=
  if s4.ttsCompleted then drain { s4 with processing := false }
  else
    let cs := o.llmChunks.filter fun c => c ≠ ""
    let chunkEvs := cs.map Event.llmStreamingChunk
    let accumulated := String.join cs
    let s5 := llmCollectState o s4
    if pyStrip accumulated = "" then
      let he := ttsErrorHandler drain o s5
      let ce := completionPhase drain he.2
      (Event.ttsStreamingStart :: chunkEvs ++ he.1 ++ ce.1, ce.2)
    else
      let al := audioLoop s5 o.audioResps 0
      let core := Event.ttsStreamingStart :: chunkEvs ++ Event.responseSaved :: al.1
      match al.2.2 with
      | TTSExit.success =>
        let ce := completionPhase drain al.2.1
        (core ++ ce.1, ce.2)
      | TTSExit.raised =>
        let he := ttsErrorHandler drain o al.2.1
        let ce := completionPhase drain he.2
        (core ++ he.1 ++ ce.1, ce.2)
      | TTSExit.hung =>
        let he := ttsTimeoutHandler drain o al.2.1
        let ce := completionPhase drain he.2
        (core ++ he.1 ++ ce.1, ce.2)

/-- The TTS phase (lines 989-1344): the RULE-1 replay guard (clear the
processing flag and drain the queue instead of synthesizing), else mark TTS
active and stream. -/
def ttsPhase (drain : SessionState → List Event × SessionState) (o : Oracle)
    (s3 : SessionState) : List Event × SessionState :=
  if s3.ttsActive ∨ s3.responsePlayed ∨ s3.bufferCleared ∨ s3.ttsCompleted then
    drain { s3 with processing := false, currentQuery := none }
  else
    ttsStreamPhase drain o { s3 with ttsActive := true }

/-- One serialized run of `handle_llm_streaming` for `u` under oracle `o`,
with `drain` standing for `process_session_queue`.  Client frames in emission
order, and the final session state.  The `finally` block applies to every
path that enters the big `try` (the 2-second exact-duplicate return
included); only the initial duplicate rejection skips it. -/
def handleRun (drain : SessionState → List Event × SessionState) (now : ℚ)
    (u : QueueItem) (o : Oracle) (s : SessionState) : List Event × SessionState :=
  if is_duplicate_query s now u.text then ([], s)
  else
    let s1 := { s with responsePlayed := false, bufferCleared := false,
                       ttsCompleted := false, ttsActive := false,
                       responses := some "", currentQuery := some u.text }
    let cancelEvs : List Event := if s1.activeTtsTask then [Event.audioStop] else []
    let s2 := { s1 with activeTtsTask := false, personaChanged := false,
                        processing := true, responses := some "" }
    if cleanExact u.text = cleanExactLast s2.lastTranscript ∧ now - s2.lastTime < 2 then
      (cancelEvs, finallyPhase { s2 with processing := false })
    else
      let searchEvs : List Event :=
        if u.webSearch ∧ o.webConfigured then
          Event.webSearchStart ::
            (if o.webOk then [Event.webSearchComplete] else [Event.webSearchError])
        else []
      let s3 := { s2 with lastTranscript := u.text, lastTime := now }
      let preEvs := cancelEvs ++ searchEvs ++ [Event.llmStreamingStart u.text]
      let tp := ttsPhase drain o s3
      (preEvs ++ tp.1, finallyPhase tp.2)

/-! ## `process_session_queue` (main.py lines 620-675) -/

/-- The per-session queue drain, fuelled: skip when still processing or
empty; pop the head; skip a duplicate discovered at dequeue (recursing on a
non-empty remainder); otherwise run `handle_llm_streaming`, whose completion
path drains the rest.  `env` assigns each queue item its service oracle. -/
def drainQueue (env : QueueItem → Oracle) (now : ℚ) :
    Nat → SessionState → List Event × SessionState
  | 0 => fun s => ([], s)
  | fuel + 1 => fun s =>
    if s.processing then ([], s)
    else
      match s.queue with
      | [] => ([], s)
      | u :: rest =>
        let s1 := { s with queue := rest }
        if is_duplicate_query s1 now u.text then
          if rest.isEmpty then ([], s1) else drainQueue env now fuel s1
        else handleRun (drainQueue env now fuel) now u (env u) s1

/-! ## The transcription callback (main.py lines 1566-1652) -/

/-- Outcome of one final-transcript delivery. -/
inductive CallbackResult where
  | shortDiscard
  | apiKeysRequired
  | duplicateRejected
  | enqueued
  | processedNow
  deriving DecidableEq

/-- `transcription_callback` on a `final_transcript`: strip, discard
transcripts whose stripped text has fewer than 3 characters, require API
keys, reject duplicates, enqueue (tail append, `query_queued` frame with the
new queue length) while processing, else process immediately. -/
def transcriptionStep (fuel : Nat) (keysConfigured : Bool) (now : ℚ)
    (env : QueueItem → Oracle) (text persona : String) (webSearch : Bool)
    (s : SessionState) : CallbackResult × List Event × SessionState :=
  let finalText := pyStrip text
  if (pyStrip finalText).length < 3 then (CallbackResult.shortDiscard, [], s)
  else if keysConfigured = false then
    (CallbackResult.apiKeysRequired, [Event.apiKeysRequired], s)
  else if is_duplicate_query s now finalText then
    (CallbackResult.duplicateRejected, [], s)
  else if s.processing then
    let item : QueueItem := ⟨finalText, persona, webSearch⟩
    let s1 := { s with queue := s.queue ++ [item] }
    (CallbackResult.enqueued, [Event.queryQueued s1.queue.length], s1)
  else
    let item : QueueItem := ⟨finalText, persona, webSearch⟩
    let run := handleRun (drainQueue env now fuel) now item (env item) s
    (CallbackResult.processedNow, run.1, run.2)

/-! ## Frame counting helpers -/

/-- Number of `tts_audio_chunk` frames with `is_final=true`. -/
def finalAudioCount (tr : List Event) : Nat :=
  tr.countP fun e => e == Event.ttsAudioChunk true

/-- Number of `tts_fallback_audio` frames. -/
def fallbackCount (tr : List Event) : Nat :=
  tr.countP fun e => e == Event.ttsFallbackAudio

/-- Terminal error frames of an utterance. -/
def isTerminalError (e : Event) : Bool :=
  e == Event.ttsStreamingTimeout || e == Event.ttsStreamingError
    || e == Event.llmStreamingError

/-- The user messages of the `llm_streaming_start` frames of a trace, in
order. -/
def startsOf (tr : List Event) : List String :=
  tr.filterMap fun e =>
    match e with
    | Event.llmStreamingStart t => some t
    | _ => none

/-- Count of non-whitespace characters of a transcript — the measure the
specification's short-utterance rule is phrased in. -/
def nonWhitespaceCount (t : String) : Nat :=
  (t.data.filter fun c => isSpaceChar c = false).length

/-- No two adjacent space characters. -/
def noDoubleSpaceB : List Char → Bool
  | a :: b :: rest => (!(a == ' ' && b == ' ')) && noDoubleSpaceB (b :: rest)
  | _ => true

/-! ## Event-order recognizer for the claimed per-utterance ordering (C2) -/

/-- Drop a leading run of `llm_streaming_chunk` frames. -/
def eatChunks : List Event → List Event
  | Event.llmStreamingChunk _ :: rest => eatChunks rest
  | tr => tr

/-- Drop a leading run of non-final `tts_audio_chunk` frames. -/
def eatNonFinalAudio : List Event → List Event
  | Event.ttsAudioChunk false :: rest => eatNonFinalAudio rest
  | tr => tr

/-- The event order asserted by the claim: `llm_streaming_start`, then the
`llm_streaming_chunk` frames, then `response_saved`, then
`tts_streaming_start`, then the audio chunks with the last one final, then
`llm_streaming_complete`, then `session_reset`. -/
def claimedOrderC2 (tr : List Event) : Bool :=
  match tr with
  | Event.llmStreamingStart _ :: tr1 =>
    match eatChunks tr1 with
    | Event.responseSaved :: Event.ttsStreamingStart :: tr2 =>
      match eatNonFinalAudio tr2 with
      | [Event.ttsAudioChunk true, Event.llmStreamingComplete, Event.sessionReset] => true
      | _ => false
    | _ => false
  | _ => false

/-- The single-playback property of one utterance's trace: at most one final
audio delivery (`tts_audio_chunk` with `is_final=true` or
`tts_fallback_audio`), and once the utterance actually enters processing
(its `llm_streaming_start` frame was emitted), exactly one — or none together
with a terminal error frame. -/
def singlePlaybackOK (u : QueueItem) (tr : List Event) : Prop :=
  finalAudioCount tr + fallbackCount tr ≤ 1 ∧
  (Event.llmStreamingStart u.text ∈ tr →
    finalAudioCount tr + fallbackCount tr = 1 ∨
    (finalAudioCount tr + fallbackCount tr = 0 ∧ ∃ e ∈ tr, isTerminalError e = true))

/-- The drain invariant: processing the queue consumes a prefix of it, and
the `llm_streaming_start` frames it emits are an order-preserving selection
of the texts of that prefix. -/
def DrainInv (drain : SessionState → List Event × SessionState) : Prop :=
  ∀ s : SessionState, ∃ pre : List QueueItem,
    s.queue = pre ++ ((drain s).2).queue ∧
    (startsOf (drain s).1).Sublist (pre.map QueueItem.text)

/-! ## Basic lemmas -/

theorem drainQueue_empty (env : QueueItem → Oracle) (now : ℚ) :
    ∀ fuel (s : SessionState), s.queue = [] → drainQueue env now fuel s = ([], s) := by
  intro fuel s h
  cases fuel with
  | zero => rfl
  | succ fuel => simp [drainQueue, h]

/-! ## Claim theorems: Murf context lifecycle -/

/-- Claim C10: after `_clear_all_contexts` returns, the adapter's tracked
state is fully reset — `active_contexts` is empty and `current_context_id`
is `None` — whatever the per-context clear outcomes were. -/
theorem c10_clear_all_resets (st : MurfState) (ok : String → Bool) :
    (clear_all_contexts st ok).activeContexts = [] ∧
    (clear_all_contexts st ok).currentContextId = none := by
  constructor <;> rfl

/-- Claim C7, counterexample: when the adapter answers the retried
voice-configuration frame with the context-limit error again, the orchestrator
retries a second time — three voice-config frames are sent for the script
`[limitError, limitError, ack]`, contradicting "retries exactly once"
(which would allow at most two sends). -/
theorem c7_counterexample :
    (send_voice_config (fun _ => true) ⟨true, [], none⟩ (ctxName 0) 1
      [MurfResp.limitError, MurfResp.limitError, MurfResp.ack]).2 = 3 ∧
    ¬ (send_voice_config (fun _ => true) ⟨true, [], none⟩ (ctxName 0) 1
      [MurfResp.limitError, MurfResp.limitError, MurfResp.ack]).2 ≤ 2 := by
  constructor <;> decide

/-- Claim C7, amended: on every receipt of the `Exceeded Active context
limit` error the orchestrator closes all tracked contexts and retries with a
fresh id — once per consecutive error received, not at most once — so the
number of voice-config frames sent is one more than the number of leading
context-limit errors in the reply script, and exactly one context remains
tracked afterwards. -/
theorem c7_amended_retry_per_error (ok : String → Bool) (st : MurfState)
    (ctxId : String) (fresh : Nat) (script : List MurfResp) :
    (send_voice_config ok st ctxId fresh script).2 = leadingLimitErrors script + 1 ∧
    (send_voice_config ok st ctxId fresh script).1.activeContexts.length = 1 := by
  induction script generalizing st ctxId fresh with
  | nil =>
    refine ⟨rfl, ?_⟩
    simp only [send_voice_config]
    split
    · simp [clear_all_contexts]
    · rename_i h
      simp at h
      simp [h]
  | cons r rest ih =>
    cases r with
    | limitError =>
      refine ⟨?_, ?_⟩
      · simp only [send_voice_config, leadingLimitErrors]
        rw [(ih _ _ _).1]
      · simp only [send_voice_config]
        exact (ih _ _ _).2
    | ack =>
      refine ⟨rfl, ?_⟩
      simp only [send_voice_config]
      split
      · simp [clear_all_contexts]
      · rename_i h
        simp at h
        simp [h]
    | otherMsg =>
      refine ⟨rfl, ?_⟩
      simp only [send_voice_config]
      split
      · simp [clear_all_contexts]
      · rename_i h
        simp at h
        simp [h]

/-! ## Claim theorems: duplicate detection -/

/-- Claim C4: when no other duplicate rule applies (no matching
currently-processing query, no matching queued query) and the candidate
normalizes identically to the non-empty last-processed transcript, the query
is rejected exactly when less than 15 seconds have elapsed since the stored
last-processing time. -/
theorem c4_recent_duplicate_window (s : SessionState) (now : ℚ) (q : String)
    (hn : normalize_query_text q ≠ "")
    (hcur : ∀ c, s.currentQuery = some c →
      ¬ (c ≠ "" ∧ normalize_query_text c = normalize_query_text q))
    (hque : ∀ it ∈ s.queue, normalize_query_text it.text ≠ normalize_query_text q)
    (hl : s.lastTranscript ≠ "")
    (hm : normalize_query_text s.lastTranscript = normalize_query_text q) :
    is_duplicate_query s now q = decide (now - s.lastTime < 15) := by
  have hcond : (match s.currentQuery with
      | some currentQuery =>
        decide (currentQuery ≠ "") && (normalize_query_text currentQuery == normalize_query_text q)
      | none => false) = false := by
    cases hc : s.currentQuery with
    | none => rfl
    | some c =>
      have h := hcur c hc
      by_cases h1 : c = ""
      · simp [h1]
      · have h2 : normalize_query_text c ≠ normalize_query_text q := fun he => h ⟨h1, he⟩
        simp [h2]
  have hany : (s.queue.any fun it => normalize_query_text it.text == normalize_query_text q)
      = false := by
    simp only [List.any_eq_false, beq_iff_eq]
    intro it hit
    exact hque it hit
  unfold is_duplicate_query
  rw [if_neg hn, hcond]
  simp only [Bool.false_eq_true, if_false]
  rw [hany]
  simp only [Bool.false_eq_true, if_false]
  by_cases hlt : now - s.lastTime < 15
  · rw [if_pos ⟨hl, hm, hlt⟩]
    simp [hlt]
  · rw [if_neg fun h => hlt h.2.2]
    simp [hlt]

/-- Witness for C4 at a concrete state: `"Hello!"` 10 seconds after
`"hello"` was processed is rejected. -/
theorem c4_recent_duplicate_window_witness :
    is_duplicate_query { freshSession with lastTranscript := "hello", lastTime := 0 } 10 "Hello!"
      = decide ((10 : ℚ) - 0 < 15) := by
  refine c4_recent_duplicate_window _ _ _ (by decide) ?_ ?_ (by decide) (by decide)
  · intro c hc
    simp [freshSession] at hc
  · intro it hit
    simp [freshSession] at hit

/-- Claim C9: a candidate whose normalized form is empty (such as pure
punctuation, which can still pass the 3-character length filter) is reported
as a duplicate by `is_duplicate_query` regardless of session state, so the
transcription callback silently drops it: never enqueued, never processed. -/
theorem c9_empty_normalization_always_duplicate (s : SessionState) (now : ℚ) (q : String)
    (fuel : Nat) (env : QueueItem → Oracle) (persona : String) (ws : Bool)
    (hnorm : normalize_query_text q = "")
    (hstr : pyStrip q = q)
    (hlen : 3 ≤ q.length) :
    is_duplicate_query s now q = true ∧
    transcriptionStep fuel true now env q persona ws s =
      (CallbackResult.duplicateRejected, [], s) := by
  have hdup : is_duplicate_query s now q = true := by
    unfold is_duplicate_query
    rw [if_pos hnorm]
  refine ⟨hdup, ?_⟩
  unfold transcriptionStep
  simp only [hstr]
  rw [if_neg (by omega), if_neg (by simp), if_pos hdup]

/-- Witness for C9: the transcript `"!!!"` has 3 non-whitespace characters
(so it passes the length filter) yet normalizes to the empty string and is
dropped as a duplicate even in a fresh session. -/
theorem c9_empty_normalization_witness :
    is_duplicate_query freshSession 0 "!!!" = true ∧
    transcriptionStep 0 true 0 (fun _ => ⟨[], [], false, false, false, false⟩) "!!!"
      "developer" false freshSession = (CallbackResult.duplicateRejected, [], freshSession) :=
  c9_empty_normalization_always_duplicate freshSession 0 "!!!" 0
    (fun _ => ⟨[], [], false, false, false, false⟩) "developer" false
    (by decide) (by decide) (by decide)

/-! ## Claim theorems: short-utterance discard -/

/-- Claim C8, counterexample: `"a b"` contains only 2 non-whitespace
characters, yet the callback does not discard it — the code compares the
length of the *stripped* text (interior whitespace included), which is 3. -/
theorem c8_counterexample :
    nonWhitespaceCount "a b" < 3 ∧
    (transcriptionStep 0 true 0 (fun _ => ⟨[], [], false, false, false, false⟩) "a b"
      "developer" false freshSession).1 ≠ CallbackResult.shortDiscard := by
  constructor
  · decide
  · decide

/-- Claim C8, amended: a finalized transcript is silently discarded — no
state change, no frames beyond the transcript frame itself — exactly when its
whitespace-stripped text has fewer than 3 characters in total (interior
whitespace counts toward the 3, so the measure is stripped length, not the
number of non-whitespace characters). -/
theorem c8_amended_short_discard (fuel : Nat) (keys : Bool) (now : ℚ)
    (env : QueueItem → Oracle) (text persona : String) (ws : Bool) (s : SessionState) :
    ((transcriptionStep fuel keys now env text persona ws s).1 = CallbackResult.shortDiscard
      ↔ (pyStrip (pyStrip text)).length < 3) ∧
    ((pyStrip (pyStrip text)).length < 3 →
      transcriptionStep fuel keys now env text persona ws s =
        (CallbackResult.shortDiscard, [], s)) := by
  constructor
  · constructor
    · intro h
      by_contra hlen
      unfold transcriptionStep at h
      rw [if_neg hlen] at h
      split at h
      · simp at h
      · split at h
        · simp at h
        · split at h
          · simp at h
          · simp at h
    · intro hlen
      unfold transcriptionStep
      rw [if_pos hlen]
  · intro h
    unfold transcriptionStep
    rw [if_pos h]

/-- Witness for C8 (amended): the transcript `"a"` is discarded with no
events and no state change. -/
theorem c8_amended_short_discard_witness :
    transcriptionStep 0 true 0 (fun _ => ⟨[], [], false, false, false, false⟩) "a"
      "developer" false freshSession = (CallbackResult.shortDiscard, [], freshSession) :=
  (c8_amended_short_discard 0 true 0 (fun _ => ⟨[], [], false, false, false, false⟩) "a"
    "developer" false freshSession).2 (by decide)

/-! ## Lemmas on word splitting and joining (for C5) -/

theorem splitWordsAux_words (l : List Char) :
    ∀ acc, (∀ c ∈ acc, isSpaceChar c = false) →
      ∀ w ∈ splitWordsAux l acc, w ≠ [] ∧ ∀ c ∈ w, isSpaceChar c = false := by
  induction l with
  | nil =>
    intro acc hacc w hw
    unfold splitWordsAux at hw
    split at hw
    · simp at hw
    · rename_i hne
      simp only [List.mem_singleton] at hw
      subst hw
      refine ⟨by simpa using hne, ?_⟩
      intro c hc
      exact hacc c (List.mem_reverse.mp hc)
  | cons a l ih =>
    intro acc hacc w hw
    unfold splitWordsAux at hw
    split at hw
    · split at hw
      · exact ih [] (by simp) w hw
      · rename_i hne
        rcases List.mem_cons.mp hw with h | h
        · subst h
          refine ⟨by simpa using hne, ?_⟩
          intro c hc
          exact hacc c (List.mem_reverse.mp hc)
        · exact ih [] (by simp) w h
    · rename_i hsp
      refine ih (a :: acc) ?_ w hw
      intro c hc
      rcases List.mem_cons.mp hc with h | h
      · subst h
        simpa using hsp
      · exact hacc c h

theorem splitWordsAux_subset (l : List Char) :
    ∀ acc w c, w ∈ splitWordsAux l acc → c ∈ w → c ∈ l ∨ c ∈ acc := by
  induction l with
  | nil =>
    intro acc w c hw hc
    unfold splitWordsAux at hw
    split at hw
    · simp at hw
    · simp only [List.mem_singleton] at hw
      subst hw
      exact Or.inr (List.mem_reverse.mp hc)
  | cons a l ih =>
    intro acc w c hw hc
    unfold splitWordsAux at hw
    split at hw
    · split at hw
      · rcases ih [] w c hw hc with h | h
        · exact Or.inl (List.mem_cons_of_mem a h)
        · simp at h
      · rcases List.mem_cons.mp hw with h | h
        · subst h
          exact Or.inr (List.mem_reverse.mp hc)
        · rcases ih [] w c h hc with h2 | h2
          · exact Or.inl (List.mem_cons_of_mem a h2)
          · simp at h2
    · rcases ih (a :: acc) w c hw hc with h | h
      · exact Or.inl (List.mem_cons_of_mem a h)
      · rcases List.mem_cons.mp h with h2 | h2
        · exact Or.inl (h2 ▸ List.mem_cons_self a l)
        · exact Or.inr h2

theorem joinSpace_mem :
    ∀ (ws : List (List Char)) (c : Char), c ∈ joinSpace ws → c = ' ' ∨ ∃ w ∈ ws, c ∈ w := by
  intro ws
  induction ws with
  | nil =>
    intro c hc
    simp [joinSpace] at hc
  | cons w tail ih =>
    intro c hc
    cases tail with
    | nil =>
      simp only [joinSpace] at hc
      exact Or.inr ⟨w, by simp, hc⟩
    | cons w2 tail2 =>
      simp only [joinSpace, List.mem_append, List.mem_cons] at hc
      rcases hc with h | h | h
      · exact Or.inr ⟨w, by simp, h⟩
      · exact Or.inl h
      · rcases ih c h with h2 | ⟨w', hw', hc'⟩
        · exact Or.inl h2
        · exact Or.inr ⟨w', List.mem_cons_of_mem w hw', hc'⟩

theorem joinSpace_ne_nil (w : List Char) (ws : List (List Char)) (hw : w ≠ []) :
    joinSpace (w :: ws) ≠ [] := by
  cases ws with
  | nil => simpa [joinSpace] using hw
  | cons w2 tail => simp [joinSpace, hw]

theorem joinSpace_head_not_space :
    ∀ (ws : List (List Char)),
      (∀ w ∈ ws, w ≠ [] ∧ ∀ c ∈ w, isSpaceChar c = false) →
      ∀ c, (joinSpace ws).head? = some c → isSpaceChar c = false := by
  intro ws hws c hc
  cases ws with
  | nil => simp [joinSpace] at hc
  | cons w tail =>
    have hw := hws w (by simp)
    cases tail with
    | nil =>
      simp only [joinSpace] at hc
      cases w with
      | nil => simp at hc
      | cons a l =>
        simp only [List.head?_cons, Option.some.injEq] at hc
        subst hc
        exact hw.2 a (List.mem_cons_self a l)
    | cons w2 tail2 =>
      simp only [joinSpace] at hc
      cases w with
      | nil => exact absurd rfl hw.1
      | cons a l =>
        simp only [List.cons_append, List.head?_cons, Option.some.injEq] at hc
        subst hc
        exact hw.2 a (List.mem_cons_self a l)

theorem joinSpace_getLast_not_space :
    ∀ (ws : List (List Char)),
      (∀ w ∈ ws, w ≠ [] ∧ ∀ c ∈ w, isSpaceChar c = false) →
      ∀ c, (joinSpace ws).getLast? = some c → isSpaceChar c = false := by
  intro ws
  induction ws with
  | nil =>
    intro _ c hc
    simp [joinSpace] at hc
  | cons w tail ih =>
    intro hws c hc
    cases tail with
    | nil =>
      simp only [joinSpace] at hc
      exact (hws w (by simp)).2 c (List.mem_of_getLast?_eq_some hc)
    | cons w2 tail2 =>
      simp only [joinSpace] at hc
      rw [List.getLast?_append_cons] at hc
      have hne : joinSpace (w2 :: tail2) ≠ [] :=
        joinSpace_ne_nil w2 tail2 (hws w2 (by simp)).1
      cases hj : joinSpace (w2 :: tail2) with
      | nil => exact absurd hj hne
      | cons b r =>
        rw [hj, List.getLast?_cons_cons] at hc
        refine ih (fun w' hw' => hws w' (List.mem_cons_of_mem w hw')) c ?_
        rw [hj]
        exact hc

theorem toLower_not_upper (c : Char) : (c.toLower).isUpper = false := by
  have h90 : (90 : UInt32).toBitVec.toNat = 90 := rfl
  have h65 : (65 : UInt32).toBitVec.toNat = 65 := rfl
  unfold Char.toLower Char.isUpper
  by_cases h : c.toNat ≥ 65 ∧ c.toNat ≤ 90
  · rw [if_pos h]
    obtain ⟨h1, h2⟩ := h
    unfold Char.ofNat
    rw [dif_pos (Or.inl (by omega))]
    simp only [Char.ofNatAux]
    simp only [Bool.and_eq_false_iff]
    right
    simp only [decide_eq_false_iff_not, UInt32.not_le]
    rw [UInt32.lt_def]
    simp only [BitVec.lt_def, BitVec.toNat_ofNatLt]
    omega
  · rw [if_neg h]
    simp only [Char.toNat, not_and, not_le] at h
    simp only [Bool.and_eq_false_iff]
    by_cases hc65 : c.val.toNat ≥ 65
    · right
      have hgt := h hc65
      have hh : c.val.toNat = c.val.toBitVec.toNat := rfl
      simp only [decide_eq_false_iff_not, UInt32.not_le]
      rw [UInt32.lt_def]
      simp only [BitVec.lt_def]
      omega
    · left
      have hh : c.val.toNat = c.val.toBitVec.toNat := rfl
      simp only [decide_eq_false_iff_not, ge_iff_le, UInt32.not_le]
      rw [UInt32.lt_def]
      simp only [BitVec.lt_def]
      omega

theorem subNonWord_chars (l : List Char) :
    ∀ c ∈ subNonWordList l, isWordChar c = true ∨ isSpaceChar c = true := by
  intro c hc
  unfold subNonWordList at hc
  rcases List.mem_map.mp hc with ⟨d, _, hd⟩
  by_cases hcond : ¬ isWordChar d = true ∧ ¬ isSpaceChar d = true
  · rw [if_pos hcond] at hd
    subst hd
    exact Or.inr rfl
  · rw [if_neg hcond] at hd
    subst hd
    rcases not_and_or.mp hcond with h | h
    · exact Or.inl (by simpa using h)
    · exact Or.inr (by simpa using h)

theorem subNonWord_lower_chars (l : List Char) :
    ∀ c ∈ subNonWordList (pyLowerList l), c.isUpper = false := by
  intro c hc
  unfold subNonWordList at hc
  rcases List.mem_map.mp hc with ⟨d, hdmem, hd⟩
  rcases List.mem_map.mp hdmem with ⟨e, _, he⟩
  by_cases hcond : ¬ isWordChar d = true ∧ ¬ isSpaceChar d = true
  · rw [if_pos hcond] at hd
    subst hd
    rfl
  · rw [if_neg hcond] at hd
    subst hd
    subst he
    exact toLower_not_upper e

theorem beq_space_eq_false {c : Char} (h : isSpaceChar c = false) : (c == ' ') = false := by
  cases hb : c == ' ' with
  | false => rfl
  | true =>
    have : c = ' ' := eq_of_beq hb
    subst this
    simp [isSpaceChar] at h

theorem noDoubleSpaceB_cons {a : Char} (l : List Char) (h : (a == ' ') = false) :
    noDoubleSpaceB (a :: l) = noDoubleSpaceB l := by
  cases l with
  | nil => rfl
  | cons b r => simp [noDoubleSpaceB, h]

theorem noDoubleSpaceB_append (w l : List Char)
    (hw : ∀ c ∈ w, isSpaceChar c = false) :
    noDoubleSpaceB (w ++ l) = noDoubleSpaceB l := by
  induction w with
  | nil => rfl
  | cons a w' ih =>
    rw [List.cons_append,
      noDoubleSpaceB_cons _ (beq_space_eq_false (hw a (List.mem_cons_self a w')))]
    exact ih fun c hc => hw c (List.mem_cons_of_mem a hc)

theorem joinSpace_noDoubleSpace :
    ∀ (ws : List (List Char)),
      (∀ w ∈ ws, w ≠ [] ∧ ∀ c ∈ w, isSpaceChar c = false) →
      noDoubleSpaceB (joinSpace ws) = true := by
  intro ws
  induction ws with
  | nil => intro _; rfl
  | cons w tail ih =>
    intro hws
    cases tail with
    | nil =>
      show noDoubleSpaceB (joinSpace [w]) = true
      have hjw : joinSpace [w] = w ++ [] := by simp [joinSpace]
      rw [hjw, noDoubleSpaceB_append w [] (hws w (by simp)).2]
      rfl
    | cons w2 tail2 =>
      show noDoubleSpaceB (joinSpace (w :: w2 :: tail2)) = true
      have hjs : joinSpace (w :: w2 :: tail2) = w ++ ' ' :: joinSpace (w2 :: tail2) := rfl
      rw [hjs, noDoubleSpaceB_append w _ (hws w (by simp)).2]
      have hne : joinSpace (w2 :: tail2) ≠ [] :=
        joinSpace_ne_nil w2 tail2 (hws w2 (by simp)).1
      have htail := ih fun w' hw' => hws w' (List.mem_cons_of_mem w hw')
      cases hj : joinSpace (w2 :: tail2) with
      | nil => exact absurd hj hne
      | cons b r =>
        have hb : isSpaceChar b = false := by
          refine joinSpace_head_not_space (w2 :: tail2)
            (fun w' hw' => hws w' (List.mem_cons_of_mem w hw')) b ?_
          rw [hj]
          rfl
        rw [hj] at htail
        rw [show (' ' :: b :: r) = (' ' :: b :: r) from rfl]
        have hstep : noDoubleSpaceB (' ' :: b :: r) =
            ((!(' ' == ' ' && b == ' ')) && noDoubleSpaceB (b :: r)) := rfl
        rw [hstep, beq_space_eq_false hb]
        simpa using htail

theorem audioLoop_success (s : SessionState) (a : String) (h : s.responses = some a)
    (m tc : Nat) :
    audioLoop s (List.replicate m (AudioResp.chunk false) ++ [AudioResp.chunk true]) tc =
      (List.replicate m (Event.ttsAudioChunk false) ++ [Event.ttsAudioChunk true],
       { s with responsePlayed := true, ttsCompleted := true,
                responses := none, bufferCleared := true },
       TTSExit.success) := by
  induction m generalizing tc with
  | zero =>
    simp only [List.replicate, List.nil_append]
    unfold audioLoop
    have hr : ({ s with responsePlayed := true, ttsCompleted := true} : SessionState).responses
        = some a := h
    rw [hr]
  | succ m ih =>
    simp only [List.replicate_succ, List.cons_append]
    unfold audioLoop
    rw [ih tc]

/-! ## Claim theorems: per-utterance event order (C2) -/

/-- Claim C2, counterexample: a successful single-utterance run emits
`tts_streaming_start` immediately after `llm_streaming_start` — before the
`llm_streaming_chunk` frames and `response_saved` — because the LLM generator
is consumed lazily inside `stream_text_to_audio`, after the
`tts_streaming_start` frame was already sent.  The claimed order (chunks and
`response_saved` before `tts_streaming_start`) therefore does not hold even
for a fully successful run. -/
theorem c2_counterexample :
    claimedOrderC2 ((handleRun
      (drainQueue (fun _ => ⟨["Hi"], [AudioResp.chunk true], true, true, true, true⟩) 0 0) 0
      ⟨"hello world", "developer", false⟩
      ⟨["Hi"], [AudioResp.chunk true], true, true, true, true⟩ freshSession).1) = false ∧
    Event.ttsAudioChunk true ∈ (handleRun
      (drainQueue (fun _ => ⟨["Hi"], [AudioResp.chunk true], true, true, true, true⟩) 0 0) 0
      ⟨"hello world", "developer", false⟩
      ⟨["Hi"], [AudioResp.chunk true], true, true, true, true⟩ freshSession).1 := by
  constructor
  · decide
  · decide

/-- Claim C2, amended: for a successful run the client-visible frames are
emitted in the order `llm_streaming_start`, `tts_streaming_start`, then the N
`llm_streaming_chunk` frames, then `response_saved`, then the M
`tts_audio_chunk` frames with only the last carrying `is_final=true`, then
`llm_streaming_complete`, then `session_reset`. -/
theorem c2_amended_stream_order
    (env : QueueItem → Oracle) (fuel : Nat) (now : ℚ) (u : QueueItem) (o : Oracle)
    (s : SessionState) (m : Nat)
    (hdup : is_duplicate_query s now u.text = false)
    (hexact : ¬ (cleanExact u.text = cleanExactLast s.lastTranscript ∧ now - s.lastTime < 2))
    (htask : s.activeTtsTask = false)
    (hweb : u.webSearch = false)
    (hq : s.queue = [])
    (hcs : ∀ c ∈ o.llmChunks, c ≠ "")
    (hacc : pyStrip (String.join o.llmChunks) ≠ "")
    (hrs : o.audioResps = List.replicate m (AudioResp.chunk false) ++ [AudioResp.chunk true]) :
    (handleRun (drainQueue env now fuel) now u o s).1 =
      Event.llmStreamingStart u.text :: Event.ttsStreamingStart ::
        (o.llmChunks.map Event.llmStreamingChunk ++ Event.responseSaved ::
          (List.replicate m (Event.ttsAudioChunk false) ++ Event.ttsAudioChunk true ::
            [Event.llmStreamingComplete, Event.sessionReset])) := by
  have hfilter : o.llmChunks.filter (fun c => decide (c ≠ "")) = o.llmChunks :=
    List.filter_eq_self.mpr fun c hc => by simpa using hcs c hc
  unfold handleRun ttsPhase ttsStreamPhase llmCollectState
  simp only [hdup, Bool.false_eq_true, if_false, htask, hweb, hrs, hfilter, hq]
  rw [if_neg hexact]
  simp only [false_and, if_false]
  rw [audioLoop_success _ (String.join o.llmChunks) rfl m 0]
  rw [if_neg hacc]
  simp only [completionPhase]
  simp only [drainQueue_empty, Option.isSome_none, Bool.false_eq_true, false_and, if_false]
  simp [drainQueue_empty]

/-- Witness for C2 (amended) at a concrete run: one LLM chunk and one final
audio chunk. -/
theorem c2_amended_stream_order_witness :
    (handleRun
      (drainQueue (fun _ => ⟨["Hi"], [AudioResp.chunk true], true, true, true, true⟩) 0 1) 0
      ⟨"hello world", "developer", false⟩
      ⟨["Hi"], [AudioResp.chunk true], true, true, true, true⟩ freshSession).1 =
      Event.llmStreamingStart "hello world" :: Event.ttsStreamingStart ::
        (List.map Event.llmStreamingChunk ["Hi"] ++ Event.responseSaved ::
          (List.replicate 0 (Event.ttsAudioChunk false) ++ Event.ttsAudioChunk true ::
            [Event.llmStreamingComplete, Event.sessionReset])) :=
  c2_amended_stream_order (fun _ => ⟨["Hi"], [AudioResp.chunk true], true, true, true, true⟩)
    1 0 ⟨"hello world", "developer", false⟩
    ⟨["Hi"], [AudioResp.chunk true], true, true, true, true⟩ freshSession 0
    (by decide) (by decide) rfl rfl rfl
    (by decide) (by decide) (by decide)

/-! ## Claim theorems: normalization (C5) -/

/-- Claim C5, counterexample: the underscore is neither a letter, a digit,
nor whitespace, yet it survives `normalize_query_text` unchanged — Python's
`\w` class keeps it, so "characters that are neither letters, digits, nor
whitespace never survive" is false. -/
theorem c5_counterexample :
    normalize_query_text "its_a_test" = "its_a_test" ∧
    '_' ∈ (normalize_query_text "its_a_test").data ∧
    Char.isAlphanum '_' = false ∧ isSpaceChar '_' = false :=
  ⟨by decide, by decide, by decide, by decide⟩

/-- Claim C5, amended: `normalize_query_text` lowercases, replaces every
character that is neither a *word character* (letter, digit, or underscore)
nor whitespace by a space, collapses whitespace runs to single spaces and
trims.  Formally: every surviving character is a non-uppercase word character
or a single space, no two spaces are adjacent, and the result neither starts
nor ends with a space. -/
theorem c5_amended_normalization (s : String) :
    (∀ c ∈ (normalize_query_text s).data,
      (isWordChar c = true ∧ c.isUpper = false) ∨ c = ' ') ∧
    noDoubleSpaceB (normalize_query_text s).data = true ∧
    (∀ c, (normalize_query_text s).data.head? = some c → c ≠ ' ') ∧
    (∀ c, (normalize_query_text s).data.getLast? = some c → c ≠ ' ') := by
  unfold normalize_query_text
  by_cases hs : s = ""
  · rw [if_pos hs]
    refine ⟨by simp, rfl, by simp, by simp⟩
  · rw [if_neg hs]
    set input := subNonWordList (pyLowerList s.data) with hinput
    have hdata : (String.mk (collapseWs input)).data = collapseWs input := rfl
    have hpieces := splitWordsAux_words input [] (by simp)
    have hpieces' : ∀ w ∈ splitWords input, w ≠ [] ∧ ∀ c ∈ w, isSpaceChar c = false :=
      fun w hw => hpieces w hw
    rw [hdata]
    unfold collapseWs
    refine ⟨?_, joinSpace_noDoubleSpace _ hpieces', ?_, ?_⟩
    · intro c hc
      rcases joinSpace_mem _ c hc with h | ⟨w, hw, hcw⟩
      · exact Or.inr h
      · have hns := (hpieces' w hw).2 c hcw
        have hin : c ∈ input := by
          rcases splitWordsAux_subset input [] w c hw hcw with h | h
          · exact h
          · simp at h
        have hup : c.isUpper = false := subNonWord_lower_chars s.data c hin
        rcases subNonWord_chars _ c hin with h | h
        · exact Or.inl ⟨h, hup⟩
        · rw [hns] at h
          exact absurd h (by simp)
    · intro c hc hsp
      have hd := joinSpace_head_not_space _ hpieces' c hc
      rw [hsp] at hd
      simp [isSpaceChar] at hd
    · intro c hc hsp
      have hd := joinSpace_getLast_not_space _ hpieces' c hc
      rw [hsp] at hd
      simp [isSpaceChar] at hd


/-! ## Counting lemmas for the single-playback guarantee (C1) -/

theorem audioLoop_spec (s : SessionState) :
    ∀ (rs : List AudioResp) (tc : Nat),
      fallbackCount (audioLoop s rs tc).1 = 0 ∧
      (∀ e ∈ (audioLoop s rs tc).1, isTerminalError e = false) ∧
      (audioLoop s rs tc).2.1.queue = s.queue ∧
      (((audioLoop s rs tc).2.2 = TTSExit.success ∧
        finalAudioCount (audioLoop s rs tc).1 = 1) ∨
       ((audioLoop s rs tc).2.2 ≠ TTSExit.success ∧
        finalAudioCount (audioLoop s rs tc).1 = 0 ∧
        (audioLoop s rs tc).2.1 = s)) := by
  intro rs
  induction rs with
  | nil =>
    intro tc
    refine ⟨rfl, by simp [audioLoop], rfl, Or.inr ⟨by simp [audioLoop], rfl, rfl⟩⟩
  | cons r rest ih =>
    intro tc
    cases r with
    | chunk f =>
      cases f with
      | true =>
        cases hr : s.responses with
        | some a =>
          unfold audioLoop
          have hrr : ({ s with responsePlayed := true, ttsCompleted := true} :
              SessionState).responses = some a := hr
          rw [hrr]
          exact ⟨rfl, by intro e he; simp at he; subst he; rfl, rfl, Or.inl ⟨rfl, rfl⟩⟩
        | none =>
          unfold audioLoop
          have hrr : ({ s with responsePlayed := true, ttsCompleted := true} :
              SessionState).responses = none := hr
          rw [hrr]
          exact ⟨rfl, by intro e he; simp at he; subst he; rfl, rfl, Or.inl ⟨rfl, rfl⟩⟩
      | false =>
        unfold audioLoop
        obtain ⟨h1, h2, h3, h4⟩ := ih tc
        refine ⟨?_, ?_, h3, ?_⟩
        · simpa [fallbackCount, List.countP_cons] using h1
        · intro e he
          rcases List.mem_cons.mp he with h | h
          · subst h; rfl
          · exact h2 e h
        · rcases h4 with ⟨he, hc⟩ | ⟨he, hc, hs⟩
          · exact Or.inl ⟨he, by simpa [finalAudioCount, List.countP_cons] using hc⟩
          · exact Or.inr ⟨he, by simpa [finalAudioCount, List.countP_cons] using hc, hs⟩
    | timeout =>
      unfold audioLoop
      by_cases htc : tc + 1 ≥ 2
      · rw [if_pos htc]
        exact ⟨rfl, by intro e he; simp at he, rfl, Or.inr ⟨by simp, rfl, rfl⟩⟩
      · rw [if_neg htc]
        obtain ⟨h1, h2, h3, h4⟩ := ih (tc + 1)
        refine ⟨?_, ?_, h3, ?_⟩
        · simpa [fallbackCount, List.countP_cons] using h1
        · intro e he
          rcases List.mem_cons.mp he with h | h
          · subst h; rfl
          · exact h2 e h
        · rcases h4 with ⟨he, hc⟩ | ⟨he, hc, hs⟩
          · exact Or.inl ⟨he, by simpa [finalAudioCount, List.countP_cons] using hc⟩
          · exact Or.inr ⟨he, by simpa [finalAudioCount, List.countP_cons] using hc, hs⟩
    | status =>
      unfold audioLoop
      obtain ⟨h1, h2, h3, h4⟩ := ih tc
      refine ⟨?_, ?_, h3, ?_⟩
      · simpa [fallbackCount, List.countP_cons] using h1
      · intro e he
        rcases List.mem_cons.mp he with h | h
        · subst h; rfl
        · exact h2 e h
      · rcases h4 with ⟨he, hc⟩ | ⟨he, hc, hs⟩
        · exact Or.inl ⟨he, by simpa [finalAudioCount, List.countP_cons] using hc⟩
        · exact Or.inr ⟨he, by simpa [finalAudioCount, List.countP_cons] using hc, hs⟩
    | errorResp =>
      unfold audioLoop
      exact ⟨rfl, by intro e he; simp at he, rfl, Or.inr ⟨by simp, rfl, rfl⟩⟩


theorem ttsTimeoutHandler_spec (env : QueueItem → Oracle) (now : ℚ) (fuel : Nat)
    (o : Oracle) (s : SessionState) (hq : s.queue = []) :
    finalAudioCount (ttsTimeoutHandler (drainQueue env now fuel) o s).1 = 0 ∧
    (fallbackCount (ttsTimeoutHandler (drainQueue env now fuel) o s).1 = 1 ∨
     (fallbackCount (ttsTimeoutHandler (drainQueue env now fuel) o s).1 = 0 ∧
      Event.ttsStreamingTimeout ∈ (ttsTimeoutHandler (drainQueue env now fuel) o s).1)) ∧
    (ttsTimeoutHandler (drainQueue env now fuel) o s).2.queue = [] := by
  by_cases h1 : s.responsePlayed = true ∨ s.bufferCleared = true
  · have heq : ttsTimeoutHandler (drainQueue env now fuel) o s =
        ([Event.ttsTimeout, Event.ttsStreamingTimeout, Event.sessionReset],
         { s with processing := false, responses := none, bufferCleared := true,
                  responsePlayed := true, queue := [] }) := by
      simp [ttsTimeoutHandler, ttsTimeoutFailure, h1, hq, drainQueue_empty]
    rw [heq]
    exact ⟨rfl, Or.inr ⟨rfl, by simp⟩, rfl⟩
  · by_cases h2 : o.ttsAvail = true ∧ pyStrip (s.responses.getD "") ≠ ""
    · by_cases h3 : o.fallbackOk = true
      · cases hr : s.responses with
        | some a =>
          have h2a : pyStrip a ≠ "" := by
            have h22 := h2.2
            rw [hr] at h22
            simpa using h22
          have heq : ttsTimeoutHandler (drainQueue env now fuel) o s =
              ([Event.ttsTimeout, Event.ttsFallbackAudio],
               { s with responsePlayed := true, ttsCompleted := true,
                        responses := none, bufferCleared := true, processing := false,
                        queue := [] }) := by
            simp [ttsTimeoutHandler, h1, h2.1, h2a, h3, hr, hq, drainQueue_empty]
          rw [heq]
          exact ⟨rfl, Or.inl rfl, rfl⟩
        | none =>
          exfalso
          apply h2.2
          rw [hr]
          rfl
      · have heq : ttsTimeoutHandler (drainQueue env now fuel) o s =
            ([Event.ttsTimeout, Event.ttsStreamingTimeout, Event.sessionReset],
             { s with processing := false, responses := none, bufferCleared := true,
                      responsePlayed := true, queue := [] }) := by
          simp [ttsTimeoutHandler, ttsTimeoutFailure, h1, h2, h3, hq, drainQueue_empty]
        rw [heq]
        exact ⟨rfl, Or.inr ⟨rfl, by simp⟩, rfl⟩
    · have heq : ttsTimeoutHandler (drainQueue env now fuel) o s =
          ([Event.ttsTimeout, Event.ttsStreamingTimeout, Event.sessionReset],
           { s with processing := false, responses := none, bufferCleared := true,
                    responsePlayed := true, queue := [] }) := by
        simp [ttsTimeoutHandler, ttsTimeoutFailure, h1, h2, hq, drainQueue_empty]
      rw [heq]
      exact ⟨rfl, Or.inr ⟨rfl, by simp⟩, rfl⟩


theorem ttsErrorHandler_spec (env : QueueItem → Oracle) (now : ℚ) (fuel : Nat)
    (o : Oracle) (s : SessionState) (hq : s.queue = []) :
    finalAudioCount (ttsErrorHandler (drainQueue env now fuel) o s).1 = 0 ∧
    (fallbackCount (ttsErrorHandler (drainQueue env now fuel) o s).1 = 1 ∨
     (fallbackCount (ttsErrorHandler (drainQueue env now fuel) o s).1 = 0 ∧
      Event.ttsStreamingError ∈ (ttsErrorHandler (drainQueue env now fuel) o s).1)) ∧
    (ttsErrorHandler (drainQueue env now fuel) o s).2.queue = [] := by
  by_cases h1 : o.ttsAvail = true ∧ pyStrip (s.responses.getD "") ≠ "" ∧
      s.responsePlayed = false
  · by_cases h2 : o.fallbackOk = true
    · have heq : ttsErrorHandler (drainQueue env now fuel) o s =
          ([Event.ttsFallbackAudio], { s with responsePlayed := true }) := by
        simp [ttsErrorHandler, h1, h2]
      rw [heq]
      exact ⟨rfl, Or.inl rfl, hq⟩
    · cases hr : s.responses with
      | some a =>
        have heq : ttsErrorHandler (drainQueue env now fuel) o s =
            ([Event.ttsStreamingError],
             { s with processing := false, responses := none, bufferCleared := true,
                      queue := [] }) := by
          simp [ttsErrorHandler, ttsErrorFailure, h1, h2, hr, hq, drainQueue_empty]
        rw [heq]
        exact ⟨rfl, Or.inr ⟨rfl, by simp⟩, rfl⟩
      | none =>
        have heq : ttsErrorHandler (drainQueue env now fuel) o s =
            ([Event.ttsStreamingError], { s with processing := false, queue := [] }) := by
          simp [ttsErrorHandler, ttsErrorFailure, h1, h2, hr, hq, drainQueue_empty]
        rw [heq]
        exact ⟨rfl, Or.inr ⟨rfl, by simp⟩, rfl⟩
  · cases hr : s.responses with
    | some a =>
      have h1a : ¬ (o.ttsAvail = true ∧ pyStrip a ≠ "" ∧ s.responsePlayed = false) := by
        rw [hr] at h1
        simpa using h1
      have heq : ttsErrorHandler (drainQueue env now fuel) o s =
          ([Event.ttsStreamingError],
           { s with processing := false, responses := none, bufferCleared := true,
                    queue := [] }) := by
        simp [ttsErrorHandler, ttsErrorFailure, h1a, hr, hq, drainQueue_empty]
      rw [heq]
      exact ⟨rfl, Or.inr ⟨rfl, by simp⟩, rfl⟩
    | none =>
      have hps : pyStrip "" = "" := rfl
      have heq : ttsErrorHandler (drainQueue env now fuel) o s =
          ([Event.ttsStreamingError], { s with processing := false, queue := [] }) := by
        simp [ttsErrorHandler, ttsErrorFailure, hps, hr, hq, drainQueue_empty]
      rw [heq]
      exact ⟨rfl, Or.inr ⟨rfl, by simp⟩, rfl⟩

theorem completionPhase_spec (env : QueueItem → Oracle) (now : ℚ) (fuel : Nat)
    (s : SessionState) (hq : s.queue = []) :
    (completionPhase (drainQueue env now fuel) s).1 =
      [Event.llmStreamingComplete, Event.sessionReset] ∧
    (completionPhase (drainQueue env now fuel) s).2.queue = [] := by
  by_cases h1 : s.responses.isSome = true ∧ s.bufferCleared = false
  · constructor
    · simp [completionPhase, h1, hq, drainQueue_empty]
    · simp [completionPhase, h1, hq, drainQueue_empty]
  · constructor
    · simp [completionPhase, h1, hq, drainQueue_empty]
    · simp [completionPhase, h1, hq, drainQueue_empty]


theorem finalAudioCount_append (a b : List Event) :
    finalAudioCount (a ++ b) = finalAudioCount a + finalAudioCount b :=
  List.countP_append _ _ _

theorem fallbackCount_append (a b : List Event) :
    fallbackCount (a ++ b) = fallbackCount a + fallbackCount b :=
  List.countP_append _ _ _

theorem finalAudioCount_cons_ne (e : Event) (l : List Event)
    (h : (e == Event.ttsAudioChunk true) = false) :
    finalAudioCount (e :: l) = finalAudioCount l := by
  simp [finalAudioCount, List.countP_cons, h]

theorem fallbackCount_cons_ne (e : Event) (l : List Event)
    (h : (e == Event.ttsFallbackAudio) = false) :
    fallbackCount (e :: l) = fallbackCount l := by
  simp [fallbackCount, List.countP_cons, h]

theorem finalAudioCount_nil : finalAudioCount [] = 0 := rfl

theorem fallbackCount_nil : fallbackCount [] = 0 := rfl

theorem chunkEvs_final_count (cs : List String) :
    finalAudioCount (cs.map Event.llmStreamingChunk) = 0 := by
  induction cs with
  | nil => rfl
  | cons c cs ih => simpa [finalAudioCount, List.countP_cons] using ih

theorem chunkEvs_fallback_count (cs : List String) :
    fallbackCount (cs.map Event.llmStreamingChunk) = 0 := by
  induction cs with
  | nil => rfl
  | cons c cs ih => simpa [fallbackCount, List.countP_cons] using ih

theorem ttsStreamPhase_spec (env : QueueItem → Oracle) (now : ℚ) (fuel : Nat)
    (o : Oracle) (s4 : SessionState) (hq : s4.queue = [])
    (h4 : s4.ttsCompleted = false) :
    finalAudioCount (ttsStreamPhase (drainQueue env now fuel) o s4).1
        + fallbackCount (ttsStreamPhase (drainQueue env now fuel) o s4).1 = 1 ∨
    (finalAudioCount (ttsStreamPhase (drainQueue env now fuel) o s4).1 = 0 ∧
     fallbackCount (ttsStreamPhase (drainQueue env now fuel) o s4).1 = 0 ∧
     ∃ e ∈ (ttsStreamPhase (drainQueue env now fuel) o s4).1, isTerminalError e = true) := by
  have hq5 : (llmCollectState o s4).queue = [] := hq
  unfold ttsStreamPhase
  simp only [h4, Bool.false_eq_true, if_false]
  by_cases hacc :
      pyStrip (String.join (o.llmChunks.filter fun c => c ≠ "")) = ""
  · rw [if_pos hacc]
    obtain ⟨e1, e2, e3⟩ := ttsErrorHandler_spec env now fuel o (llmCollectState o s4) hq5
    obtain ⟨c1, c2⟩ := completionPhase_spec env now fuel
      ((ttsErrorHandler (drainQueue env now fuel) o (llmCollectState o s4)).2) e3
    rcases e2 with hfb | ⟨hfb, hmem⟩
    · left
      simp [finalAudioCount_append, fallbackCount_append, e1, hfb, c1,
        finalAudioCount_cons_ne, fallbackCount_cons_ne,
        chunkEvs_final_count, chunkEvs_fallback_count, finalAudioCount_nil, fallbackCount_nil]
    · right
      refine ⟨?_, ?_, Event.ttsStreamingError, ?_, rfl⟩
      · simp [finalAudioCount_append, e1, c1, finalAudioCount_cons_ne,
          chunkEvs_final_count, finalAudioCount_nil]
      · simp [fallbackCount_append, hfb, c1, fallbackCount_cons_ne,
          chunkEvs_fallback_count, fallbackCount_nil]
      · simp only [List.mem_cons, List.mem_append]
        tauto
  · rw [if_neg hacc]
    obtain ⟨a1, a2, a3, a4⟩ := audioLoop_spec (llmCollectState o s4) o.audioResps 0
    have hqa : (audioLoop (llmCollectState o s4) o.audioResps 0).2.1.queue = [] :=
      a3.trans hq5
    rcases a4 with ⟨hex, hfc⟩ | ⟨hex, hfc, hst⟩
    · rw [hex]
      obtain ⟨c1, c2⟩ := completionPhase_spec env now fuel
        ((audioLoop (llmCollectState o s4) o.audioResps 0).2.1) hqa
      left
      simp [finalAudioCount_append, fallbackCount_append, a1, hfc, c1,
        finalAudioCount_cons_ne, fallbackCount_cons_ne,
        chunkEvs_final_count, chunkEvs_fallback_count, finalAudioCount_nil, fallbackCount_nil]
    · cases hexv : (audioLoop (llmCollectState o s4) o.audioResps 0).2.2 with
      | success => exact absurd hexv hex
      | raised =>
        obtain ⟨e1, e2, e3⟩ := ttsErrorHandler_spec env now fuel o
          ((audioLoop (llmCollectState o s4) o.audioResps 0).2.1) hqa
        obtain ⟨c1, c2⟩ := completionPhase_spec env now fuel
          ((ttsErrorHandler (drainQueue env now fuel) o
            ((audioLoop (llmCollectState o s4) o.audioResps 0).2.1)).2) e3
        rcases e2 with hfb | ⟨hfb, hmem⟩
        · left
          simp [finalAudioCount_append, fallbackCount_append, a1, e1, hfc, hfb, c1,
            finalAudioCount_cons_ne, fallbackCount_cons_ne,
            chunkEvs_final_count, chunkEvs_fallback_count, finalAudioCount_nil, fallbackCount_nil]
        · right
          refine ⟨?_, ?_, Event.ttsStreamingError, ?_, rfl⟩
          · simp [finalAudioCount_append, a1, e1, hfc, c1, finalAudioCount_cons_ne,
              chunkEvs_final_count, finalAudioCount_nil]
          · simp [fallbackCount_append, a1, hfb, hfc, c1, fallbackCount_cons_ne,
              chunkEvs_fallback_count, fallbackCount_nil]
          · simp only [List.mem_cons, List.mem_append]
            tauto
      | hung =>
        obtain ⟨e1, e2, e3⟩ := ttsTimeoutHandler_spec env now fuel o
          ((audioLoop (llmCollectState o s4) o.audioResps 0).2.1) hqa
        obtain ⟨c1, c2⟩ := completionPhase_spec env now fuel
          ((ttsTimeoutHandler (drainQueue env now fuel) o
            ((audioLoop (llmCollectState o s4) o.audioResps 0).2.1)).2) e3
        rcases e2 with hfb | ⟨hfb, hmem⟩
        · left
          simp [finalAudioCount_append, fallbackCount_append, a1, e1, hfc, hfb, c1,
            finalAudioCount_cons_ne, fallbackCount_cons_ne,
            chunkEvs_final_count, chunkEvs_fallback_count, finalAudioCount_nil, fallbackCount_nil]
        · right
          refine ⟨?_, ?_, Event.ttsStreamingTimeout, ?_, rfl⟩
          · simp [finalAudioCount_append, a1, e1, hfc, c1, finalAudioCount_cons_ne,
              chunkEvs_final_count, finalAudioCount_nil]
          · simp [fallbackCount_append, a1, hfb, hfc, c1, fallbackCount_cons_ne,
              chunkEvs_fallback_count, fallbackCount_nil]
          · simp only [List.mem_cons, List.mem_append]
            tauto


theorem ttsPhase_spec (env : QueueItem → Oracle) (now : ℚ) (fuel : Nat)
    (o : Oracle) (sx : SessionState) (hq : sx.queue = [])
    (ha : sx.ttsActive = false) (hp : sx.responsePlayed = false)
    (hb : sx.bufferCleared = false) (hc : sx.ttsCompleted = false) :
    finalAudioCount (ttsPhase (drainQueue env now fuel) o sx).1
        + fallbackCount (ttsPhase (drainQueue env now fuel) o sx).1 = 1 ∨
    (finalAudioCount (ttsPhase (drainQueue env now fuel) o sx).1 = 0 ∧
     fallbackCount (ttsPhase (drainQueue env now fuel) o sx).1 = 0 ∧
     ∃ e ∈ (ttsPhase (drainQueue env now fuel) o sx).1, isTerminalError e = true) := by
  unfold ttsPhase
  simp only [ha, hp, hb, hc, Bool.false_eq_true, false_or, if_false]
  exact ttsStreamPhase_spec env now fuel o
    { sx with responsePlayed := false, bufferCleared := false,
              ttsCompleted := false, ttsActive := true }
    (by simpa using hq) rfl

theorem cancelEvs_counts (b : Bool) :
    finalAudioCount (if b = true then [Event.audioStop] else []) = 0 ∧
    fallbackCount (if b = true then [Event.audioStop] else []) = 0 := by
  cases b <;> simp [finalAudioCount, fallbackCount, List.countP_cons]

theorem searchEvs_counts (u : QueueItem) (o : Oracle) :
    finalAudioCount (if u.webSearch = true ∧ o.webConfigured = true then
        Event.webSearchStart ::
          (if o.webOk = true then [Event.webSearchComplete] else [Event.webSearchError])
      else []) = 0 ∧
    fallbackCount (if u.webSearch = true ∧ o.webConfigured = true then
        Event.webSearchStart ::
          (if o.webOk = true then [Event.webSearchComplete] else [Event.webSearchError])
      else []) = 0 := by
  by_cases h1 : u.webSearch = true ∧ o.webConfigured = true <;>
    by_cases h2 : o.webOk = true <;>
      simp [h1, h2, finalAudioCount, fallbackCount, List.countP_cons]

/-- Claim C1 (single playback): for any session state with an empty queue and
any behaviour of the remote services, one `handle_llm_streaming` run delivers
at most one final audio (final `tts_audio_chunk` plus `tts_fallback_audio`
frames together never exceed one), and when the utterance enters processing
the count is exactly one, or zero together with a terminal error frame. -/
theorem c1_single_playback (env : QueueItem → Oracle) (fuel : Nat) (now : ℚ)
    (u : QueueItem) (o : Oracle) (s : SessionState) (hq : s.queue = []) :
    singlePlaybackOK u (handleRun (drainQueue env now fuel) now u o s).1 := by
  unfold handleRun
  by_cases hdup : is_duplicate_query s now u.text = true
  · simp only [hdup, if_true]
    exact ⟨by simp [finalAudioCount, fallbackCount], by simp⟩
  · simp only [hdup, Bool.false_eq_true, if_false]
    by_cases hex : cleanExact u.text = cleanExactLast s.lastTranscript ∧ now - s.lastTime < 2
    · rw [if_pos hex]
      cases hat : s.activeTtsTask <;>
        exact ⟨by simp [hat, finalAudioCount, fallbackCount, List.countP_cons],
               by simp [hat]⟩
    · rw [if_neg hex]
      have hts := ttsPhase_spec env now fuel o
        { processing := true, queue := s.queue, currentQuery := some u.text,
          responsePlayed := false, bufferCleared := false, ttsCompleted := false,
          ttsActive := false, responses := some "", lastTranscript := u.text,
          lastTime := now, personaChanged := false, activeTtsTask := false }
        (by simpa using hq) rfl rfl rfl rfl
      obtain ⟨hc1, hc2⟩ := cancelEvs_counts s.activeTtsTask
      obtain ⟨hs1, hs2⟩ := searchEvs_counts u o
      have hstart1 : finalAudioCount [Event.llmStreamingStart u.text] = 0 := rfl
      have hstart2 : fallbackCount [Event.llmStreamingStart u.text] = 0 := rfl
      constructor
      · rcases hts with h | ⟨h1, h2, _⟩
        · simp only [finalAudioCount_append, fallbackCount_append, hc1, hc2, hs1, hs2,
            hstart1, hstart2]
          omega
        · simp only [finalAudioCount_append, fallbackCount_append, hc1, hc2, hs1, hs2,
            hstart1, hstart2]
          omega
      · intro _
        rcases hts with h | ⟨h1, h2, e, hmem, hterm⟩
        · left
          simp only [finalAudioCount_append, fallbackCount_append, hc1, hc2, hs1, hs2,
            hstart1, hstart2]
          omega
        · right
          refine ⟨?_, e, ?_, hterm⟩
          · simp only [finalAudioCount_append, fallbackCount_append, hc1, hc2, hs1, hs2,
              hstart1, hstart2]
            omega
          · simp only [List.mem_append]
            tauto

/-- Witness for C1 at a concrete successful run. -/
theorem c1_single_playback_witness :
    freshSession.queue = [] ∧
    singlePlaybackOK ⟨"hello world", "developer", false⟩
      ((handleRun
        (drainQueue (fun _ => ⟨["Hi"], [AudioResp.chunk true], true, true, true, true⟩) 0 1) 0
        ⟨"hello world", "developer", false⟩
        ⟨["Hi"], [AudioResp.chunk true], true, true, true, true⟩ freshSession).1) :=
  ⟨rfl, c1_single_playback (fun _ => ⟨["Hi"], [AudioResp.chunk true], true, true, true, true⟩)
    1 0 ⟨"hello world", "developer", false⟩
    ⟨["Hi"], [AudioResp.chunk true], true, true, true, true⟩ freshSession rfl⟩



/-! ## Claim theorems: TTS failure fallback semantics (C6) -/

/-- Claim C6, counterexample: in the streaming-error branch (the
`except Exception` handler), a failed fallback emits `tts_streaming_error`
and sets `bufferCleared`, but does NOT mark `responsePlayed` true — contrary
to the claim that "played is marked true to foreclose further replay" on
every fallback failure. -/
theorem c6_counterexample :
    (ttsErrorHandler
      (drainQueue (fun _ => ⟨[], [], true, false, false, false⟩) 0 0)
      ⟨[], [], true, false, false, false⟩
      { freshSession with responses := some "Hello there", processing := true,
                          currentQuery := some "hi" }).1 = [Event.ttsStreamingError] ∧
    (ttsErrorHandler
      (drainQueue (fun _ => ⟨[], [], true, false, false, false⟩) 0 0)
      ⟨[], [], true, false, false, false⟩
      { freshSession with responses := some "Hello there", processing := true,
                          currentQuery := some "hi" }).2.bufferCleared = true ∧
    (ttsErrorHandler
      (drainQueue (fun _ => ⟨[], [], true, false, false, false⟩) 0 0)
      ⟨[], [], true, false, false, false⟩
      { freshSession with responses := some "Hello there", processing := true,
                          currentQuery := some "hi" }).2.responsePlayed = false := by
  refine ⟨by decide, by decide, by decide⟩

/-- Claim C6, amended: with a buffered unplayed response, exactly one
fallback attempt is made on TTS failure.  In the 45-second timeout branch:
on fallback success exactly one `tts_fallback_audio` frame is sent and
`played`/`cleared` are set with the buffer dropped; on failure
`tts_streaming_timeout` is emitted and both `cleared` and `played` are set.
In the streaming-error branch: on success one `tts_fallback_audio` frame is
sent and only `played` is set there (the buffer is dropped and `cleared` set
in the subsequent completion step); on failure `tts_streaming_error` is
emitted and `cleared` is set while `played` stays false — replay is then
foreclosed by `cleared` alone.  When the response was already played, no
fallback is attempted at all. -/
theorem c6_amended_fallback_semantics
    (env : QueueItem → Oracle) (now : ℚ) (fuel : Nat)
    (s : SessionState) (a : String) (o1 o2 : Oracle)
    (hq : s.queue = [])
    (hresp : s.responses = some a) (ha : pyStrip a ≠ "")
    (hp : s.responsePlayed = false) (hb : s.bufferCleared = false)
    (ho1 : o1.ttsAvail = true ∧ o1.fallbackOk = true)
    (ho2 : o2.ttsAvail = true ∧ o2.fallbackOk = false) :
    ttsTimeoutHandler (drainQueue env now fuel) o1 s =
      ([Event.ttsTimeout, Event.ttsFallbackAudio],
       { s with responsePlayed := true, ttsCompleted := true,
                responses := none, bufferCleared := true, processing := false }) ∧
    ttsTimeoutHandler (drainQueue env now fuel) o2 s =
      ([Event.ttsTimeout, Event.ttsStreamingTimeout, Event.sessionReset],
       { s with processing := false, responses := none,
                bufferCleared := true, responsePlayed := true }) ∧
    ttsErrorHandler (drainQueue env now fuel) o1 s =
      ([Event.ttsFallbackAudio], { s with responsePlayed := true }) ∧
    ttsErrorHandler (drainQueue env now fuel) o2 s =
      ([Event.ttsStreamingError],
       { s with processing := false, responses := none, bufferCleared := true }) ∧
    (ttsErrorHandler (drainQueue env now fuel) o2 s).2.responsePlayed = false ∧
    (completionPhase (drainQueue env now fuel)
      { s with responsePlayed := true }).2.responses = none ∧
    fallbackCount (ttsTimeoutHandler (drainQueue env now fuel) o1
      { s with responsePlayed := true }).1 = 0 := by
  refine ⟨?_, ?_, ?_, ?_, ?_, ?_, ?_⟩
  · simp [ttsTimeoutHandler, hp, hb, ho1.1, ho1.2, hresp, ha, hq, drainQueue_empty]
  · simp [ttsTimeoutHandler, ttsTimeoutFailure, hp, hb, ho2.1, ho2.2, hresp, ha, hq,
      drainQueue_empty]
  · simp [ttsErrorHandler, hp, ho1.1, ho1.2, hresp, ha]
  · simp [ttsErrorHandler, ttsErrorFailure, hp, ho2.1, ho2.2, hresp, ha, hq,
      drainQueue_empty]
  · simp [ttsErrorHandler, ttsErrorFailure, hp, ho2.1, ho2.2, hresp, ha, hq,
      drainQueue_empty]
  · simp [completionPhase, hresp, hb, hq, drainQueue_empty]
  · simp [ttsTimeoutHandler, ttsTimeoutFailure, hresp, ha, hq, drainQueue_empty,
      fallbackCount, List.countP_cons]

/-- Witness for C6 (amended) at a concrete buffered state. -/
theorem c6_amended_fallback_semantics_witness :
    pyStrip "Hello there" ≠ "" ∧
    ttsErrorHandler
      (drainQueue (fun _ => ⟨[], [], true, true, false, false⟩) 0 0)
      ⟨[], [], true, true, false, false⟩
      { freshSession with responses := some "Hello there" } =
      ([Event.ttsFallbackAudio],
       { { freshSession with responses := some "Hello there" } with responsePlayed := true }) :=
  ⟨by decide,
   (c6_amended_fallback_semantics (fun _ => ⟨[], [], true, true, false, false⟩) 0 0
      { freshSession with responses := some "Hello there" } "Hello there"
      ⟨[], [], true, true, false, false⟩ ⟨[], [], true, false, false, false⟩
      rfl rfl (by decide) rfl rfl ⟨rfl, rfl⟩ ⟨rfl, rfl⟩).2.2.1⟩

/-! ## The FIFO drain invariant (C3) -/

theorem startsOf_append (a b : List Event) :
    startsOf (a ++ b) = startsOf a ++ startsOf b :=
  List.filterMap_append a b _

theorem startsOf_chunkEvs (cs : List String) :
    startsOf (cs.map Event.llmStreamingChunk) = [] := by
  induction cs with
  | nil => rfl
  | cons c cs ih => simpa [startsOf, List.filterMap_cons] using ih

theorem startsOf_audioLoop (s : SessionState) :
    ∀ (rs : List AudioResp) (tc : Nat), startsOf (audioLoop s rs tc).1 = [] := by
  intro rs
  induction rs with
  | nil => intro tc; rfl
  | cons r rest ih =>
    intro tc
    cases r with
    | chunk f =>
      cases f with
      | true => rfl
      | false =>
        unfold audioLoop
        simpa [startsOf, List.filterMap_cons] using ih tc
    | timeout =>
      unfold audioLoop
      by_cases htc : tc + 1 ≥ 2
      · rw [if_pos htc]
        rfl
      · rw [if_neg htc]
        simpa [startsOf, List.filterMap_cons] using ih (tc + 1)
    | status =>
      unfold audioLoop
      simpa [startsOf, List.filterMap_cons] using ih tc
    | errorResp => rfl

theorem inv_chain {q q1 q2 : List QueueItem} {pre1 pre2 : List QueueItem}
    {st1 st2 : List String}
    (h1 : q = pre1 ++ q1) (hs1 : st1.Sublist (pre1.map QueueItem.text))
    (h2 : q1 = pre2 ++ q2) (hs2 : st2.Sublist (pre2.map QueueItem.text)) :
    q = (pre1 ++ pre2) ++ q2 ∧
    (st1 ++ st2).Sublist ((pre1 ++ pre2).map QueueItem.text) := by
  subst h1 h2
  refine ⟨by simp, ?_⟩
  rw [List.map_append]
  exact hs1.append hs2

theorem ttsErrorFailure_inv {drain : SessionState → List Event × SessionState}
    (hD : DrainInv drain) (s : SessionState) :
    ∃ pre, s.queue = pre ++ ((ttsErrorFailure drain s).2).queue ∧
      (startsOf (ttsErrorFailure drain s).1).Sublist (pre.map QueueItem.text) := by
  unfold ttsErrorFailure
  cases hr : s.responses with
  | some a =>
    simp only [hr]
    obtain ⟨pre, hp1, hp2⟩ := hD ({ s with
      processing := false, responses := none, bufferCleared := true } : SessionState)
    exact ⟨pre, hp1, by simpa [startsOf, List.filterMap_cons] using hp2⟩
  | none =>
    simp only [hr]
    obtain ⟨pre, hp1, hp2⟩ := hD ({ s with
      processing := false, responses := none } : SessionState)
    exact ⟨pre, hp1, by simpa [startsOf, List.filterMap_cons] using hp2⟩

theorem ttsErrorHandler_inv {drain : SessionState → List Event × SessionState}
    (hD : DrainInv drain) (o : Oracle) (s : SessionState) :
    ∃ pre, s.queue = pre ++ ((ttsErrorHandler drain o s).2).queue ∧
      (startsOf (ttsErrorHandler drain o s).1).Sublist (pre.map QueueItem.text) := by
  by_cases h1 : o.ttsAvail = true ∧ pyStrip (s.responses.getD "") ≠ "" ∧
      s.responsePlayed = false
  · by_cases h2 : o.fallbackOk = true
    · have heq : ttsErrorHandler drain o s =
          ([Event.ttsFallbackAudio],
            ({ s with responsePlayed := true } : SessionState)) := by
        simp [ttsErrorHandler, h1.1, h1.2.1, h1.2.2, h2]
      rw [heq]
      exact ⟨[], by simp, by simp [startsOf]⟩
    · have heq : ttsErrorHandler drain o s = ttsErrorFailure drain s := by
        simp [ttsErrorHandler, h1.1, h1.2.1, h1.2.2, h2]
      rw [heq]
      exact ttsErrorFailure_inv hD s
  · have heq : ttsErrorHandler drain o s = ttsErrorFailure drain s := by
      by_cases ha : o.ttsAvail = true
      · by_cases hb : pyStrip (s.responses.getD "") = ""
        · simp [ttsErrorHandler, hb]
        · have hc : s.responsePlayed = true := by
            rcases Bool.eq_false_or_eq_true s.responsePlayed with h | h
            · exact h
            · exact absurd ⟨ha, hb, h⟩ h1
          simp [ttsErrorHandler, hc]
      · have ha' : o.ttsAvail = false := by
          rcases Bool.eq_false_or_eq_true o.ttsAvail with h | h
          · exact absurd h ha
          · exact h
        simp [ttsErrorHandler, ha']
    rw [heq]
    exact ttsErrorFailure_inv hD s

theorem ttsTimeoutFailure_inv {drain : SessionState → List Event × SessionState}
    (hD : DrainInv drain) (s : SessionState) :
    ∃ pre, s.queue = pre ++ ((ttsTimeoutFailure drain s).2).queue ∧
      (startsOf (ttsTimeoutFailure drain s).1).Sublist (pre.map QueueItem.text) := by
  unfold ttsTimeoutFailure
  obtain ⟨pre, hp1, hp2⟩ := hD ({ s with
    processing := false, responses := none, bufferCleared := true,
    responsePlayed := true } : SessionState)
  exact ⟨pre, hp1,
    by simpa [startsOf, List.filterMap_cons, List.filterMap_append] using hp2⟩

theorem ttsTimeoutHandler_inv {drain : SessionState → List Event × SessionState}
    (hD : DrainInv drain) (o : Oracle) (s : SessionState) :
    ∃ pre, s.queue = pre ++ ((ttsTimeoutHandler drain o s).2).queue ∧
      (startsOf (ttsTimeoutHandler drain o s).1).Sublist (pre.map QueueItem.text) := by
  by_cases h1 : s.responsePlayed = true ∨ s.bufferCleared = true
  · have heq : ttsTimeoutHandler drain o s =
        (Event.ttsTimeout :: (ttsTimeoutFailure drain s).1,
          (ttsTimeoutFailure drain s).2) := by
      simp only [ttsTimeoutHandler]
      rw [if_pos h1]
    rw [heq]
    obtain ⟨pre, hp1, hp2⟩ := ttsTimeoutFailure_inv hD s
    exact ⟨pre, hp1, by simpa [startsOf, List.filterMap_cons] using hp2⟩
  · by_cases h2 : o.ttsAvail = true ∧ pyStrip (s.responses.getD "") ≠ ""
    · by_cases h3 : o.fallbackOk = true
      · cases hr : s.responses with
        | some a =>
          have hba : pyStrip a ≠ "" := by simpa [hr] using h2.2
          have heq : ttsTimeoutHandler drain o s =
              (Event.ttsTimeout :: Event.ttsFallbackAudio ::
                (drain ({ s with
                  responsePlayed := true, ttsCompleted := true,
                  responses := none, bufferCleared := true,
                  processing := false } : SessionState)).1,
               (drain ({ s with
                  responsePlayed := true, ttsCompleted := true,
                  responses := none, bufferCleared := true,
                  processing := false } : SessionState)).2) := by
            simp [ttsTimeoutHandler, h1, h2.1, h2.2, hba, h3, hr]
          rw [heq]
          obtain ⟨pre, hp1, hp2⟩ := hD ({ s with
            responsePlayed := true, ttsCompleted := true, responses := none,
            bufferCleared := true, processing := false } : SessionState)
          exact ⟨pre, hp1, by simpa [startsOf, List.filterMap_cons] using hp2⟩
        | none =>
          exfalso
          apply h2.2
          rw [hr]
          rfl
      · have heq : ttsTimeoutHandler drain o s =
            (Event.ttsTimeout :: (ttsTimeoutFailure drain s).1,
              (ttsTimeoutFailure drain s).2) := by
          simp [ttsTimeoutHandler, h1, h2.1, h2.2, h3]
        rw [heq]
        obtain ⟨pre, hp1, hp2⟩ := ttsTimeoutFailure_inv hD s
        exact ⟨pre, hp1, by simpa [startsOf, List.filterMap_cons] using hp2⟩
    · have heq : ttsTimeoutHandler drain o s =
          (Event.ttsTimeout :: (ttsTimeoutFailure drain s).1,
            (ttsTimeoutFailure drain s).2) := by
        by_cases ha : o.ttsAvail = true
        · have hb : pyStrip (s.responses.getD "") = "" := by
            by_contra hb
            exact h2 ⟨ha, hb⟩
          simp [ttsTimeoutHandler, h1, hb]
        · have ha' : o.ttsAvail = false := by
            rcases Bool.eq_false_or_eq_true o.ttsAvail with h | h
            · exact absurd h ha
            · exact h
          simp [ttsTimeoutHandler, h1, ha']
      rw [heq]
      obtain ⟨pre, hp1, hp2⟩ := ttsTimeoutFailure_inv hD s
      exact ⟨pre, hp1, by simpa [startsOf, List.filterMap_cons] using hp2⟩

theorem completionPhase_inv {drain : SessionState → List Event × SessionState}
    (hD : DrainInv drain) (s : SessionState) :
    ∃ pre, s.queue = pre ++ ((completionPhase drain s).2).queue ∧
      (startsOf (completionPhase drain s).1).Sublist (pre.map QueueItem.text) := by
  by_cases h1 : s.responses.isSome = true ∧ s.bufferCleared = false
  · simp only [completionPhase, h1, if_true]
    obtain ⟨pre, hp1, hp2⟩ := hD ({ s with
      responses := none, processing := false, currentQuery := none,
      responsePlayed := false, bufferCleared := false, ttsCompleted := false,
      ttsActive := false } : SessionState)
    exact ⟨pre, hp1,
      by simpa [startsOf, List.filterMap_cons, List.filterMap_append] using hp2⟩
  · simp only [completionPhase, h1, if_false]
    obtain ⟨pre, hp1, hp2⟩ := hD ({ s with
      processing := false, currentQuery := none, responsePlayed := false,
      bufferCleared := false, ttsCompleted := false,
      ttsActive := false } : SessionState)
    exact ⟨pre, hp1,
      by simpa [startsOf, List.filterMap_cons, List.filterMap_append] using hp2⟩

theorem startsOf_nil : startsOf [] = [] := rfl

theorem startsOf_cons (e : Event) (l : List Event) :
    startsOf (e :: l) =
      (match e with | Event.llmStreamingStart t => [t] | _ => []) ++ startsOf l := by
  cases e <;> simp [startsOf, List.filterMap_cons]

theorem startsOf_ite (c : Prop) [Decidable c] (a b : List Event) :
    startsOf (if c then a else b) = if c then startsOf a else startsOf b :=
  apply_ite startsOf c a b

theorem audioLoop_queue (s : SessionState) :
    ∀ (rs : List AudioResp) (tc : Nat), ((audioLoop s rs tc).2.1).queue = s.queue := by
  intro rs
  induction rs with
  | nil => intro tc; rfl
  | cons r rest ih =>
    intro tc
    cases r with
    | chunk f =>
      cases f with
      | true => cases hr : s.responses <;> simp [audioLoop, hr]
      | false => simpa [audioLoop] using ih tc
    | timeout =>
      by_cases htc : tc + 1 ≥ 2
      · simp [audioLoop, htc]
      · simpa [audioLoop, htc] using ih (tc + 1)
    | status => simpa [audioLoop] using ih tc
    | errorResp => rfl

theorem ttsStreamPhase_inv {drain : SessionState → List Event × SessionState}
    (hD : DrainInv drain) (o : Oracle) (s4 : SessionState) :
    ∃ pre, s4.queue = pre ++ ((ttsStreamPhase drain o s4).2).queue ∧
      (startsOf (ttsStreamPhase drain o s4).1).Sublist (pre.map QueueItem.text) := by
  by_cases h1 : s4.ttsCompleted = true
  · have heq : ttsStreamPhase drain o s4 =
        drain { s4 with processing := false } := by
      simp [ttsStreamPhase, h1]
    rw [heq]
    obtain ⟨pre, hp1, hp2⟩ := hD ({ s4 with processing := false } : SessionState)
    exact ⟨pre, hp1, hp2⟩
  · by_cases hacc : pyStrip (String.join (o.llmChunks.filter fun c => c ≠ "")) = ""
    · simp only [ne_eq, decide_not] at hacc
      have heq : ttsStreamPhase drain o s4 =
          (Event.ttsStreamingStart ::
            (o.llmChunks.filter fun c => c ≠ "").map Event.llmStreamingChunk ++
            (ttsErrorHandler drain o (llmCollectState o s4)).1 ++
            (completionPhase drain
              (ttsErrorHandler drain o (llmCollectState o s4)).2).1,
           (completionPhase drain
              (ttsErrorHandler drain o (llmCollectState o s4)).2).2) := by
        simp [ttsStreamPhase, h1, hacc]
      rw [heq]
      obtain ⟨p1, hp1, hs1⟩ := ttsErrorHandler_inv hD o (llmCollectState o s4)
      obtain ⟨p2, hp2, hs2⟩ := completionPhase_inv hD
        ((ttsErrorHandler drain o (llmCollectState o s4)).2)
      have hp1' : s4.queue = p1 ++
          ((ttsErrorHandler drain o (llmCollectState o s4)).2).queue := hp1
      have hc := inv_chain hp1' hs1 hp2 hs2
      refine ⟨p1 ++ p2, hc.1, ?_⟩
      have hs : startsOf (Event.ttsStreamingStart ::
          (o.llmChunks.filter fun c => c ≠ "").map Event.llmStreamingChunk ++
          (ttsErrorHandler drain o (llmCollectState o s4)).1 ++
          (completionPhase drain
            (ttsErrorHandler drain o (llmCollectState o s4)).2).1) =
          startsOf (ttsErrorHandler drain o (llmCollectState o s4)).1 ++
          startsOf (completionPhase drain
            (ttsErrorHandler drain o (llmCollectState o s4)).2).1 := by
        simp [startsOf_cons, startsOf_append, startsOf_chunkEvs]
      rw [hs]
      exact hc.2
    · simp only [ne_eq, decide_not] at hacc
      cases hexit : (audioLoop (llmCollectState o s4) o.audioResps 0).2.2 with
      | success =>
        have heq : ttsStreamPhase drain o s4 =
            ((Event.ttsStreamingStart ::
              (o.llmChunks.filter fun c => c ≠ "").map Event.llmStreamingChunk ++
              Event.responseSaved ::
                (audioLoop (llmCollectState o s4) o.audioResps 0).1) ++
             (completionPhase drain
               (audioLoop (llmCollectState o s4) o.audioResps 0).2.1).1,
             (completionPhase drain
               (audioLoop (llmCollectState o s4) o.audioResps 0).2.1).2) := by
          simp [ttsStreamPhase, h1, hacc, hexit]
        rw [heq]
        obtain ⟨p2, hp2, hs2⟩ := completionPhase_inv hD
          ((audioLoop (llmCollectState o s4) o.audioResps 0).2.1)
        have hq' : s4.queue = p2 ++
            ((completionPhase drain
              (audioLoop (llmCollectState o s4) o.audioResps 0).2.1).2).queue := by
          rw [← hp2]
          exact (audioLoop_queue (llmCollectState o s4) o.audioResps 0).symm
        refine ⟨p2, hq', ?_⟩
        have hs : startsOf ((Event.ttsStreamingStart ::
            (o.llmChunks.filter fun c => c ≠ "").map Event.llmStreamingChunk ++
            Event.responseSaved ::
              (audioLoop (llmCollectState o s4) o.audioResps 0).1) ++
            (completionPhase drain
              (audioLoop (llmCollectState o s4) o.audioResps 0).2.1).1) =
            startsOf (completionPhase drain
              (audioLoop (llmCollectState o s4) o.audioResps 0).2.1).1 := by
          simp [startsOf_cons, startsOf_append, startsOf_chunkEvs, startsOf_audioLoop]
        rw [hs]
        exact hs2
      | raised =>
        have heq : ttsStreamPhase drain o s4 =
            ((Event.ttsStreamingStart ::
              (o.llmChunks.filter fun c => c ≠ "").map Event.llmStreamingChunk ++
              Event.responseSaved ::
                (audioLoop (llmCollectState o s4) o.audioResps 0).1) ++
             (ttsErrorHandler drain o
               (audioLoop (llmCollectState o s4) o.audioResps 0).2.1).1 ++
             (completionPhase drain
               (ttsErrorHandler drain o
                 (audioLoop (llmCollectState o s4) o.audioResps 0).2.1).2).1,
             (completionPhase drain
               (ttsErrorHandler drain o
                 (audioLoop (llmCollectState o s4) o.audioResps 0).2.1).2).2) := by
          simp [ttsStreamPhase, h1, hacc, hexit]
        rw [heq]
        obtain ⟨p1, hp1, hs1⟩ := ttsErrorHandler_inv hD o
          ((audioLoop (llmCollectState o s4) o.audioResps 0).2.1)
        obtain ⟨p2, hp2, hs2⟩ := completionPhase_inv hD
          ((ttsErrorHandler drain o
            (audioLoop (llmCollectState o s4) o.audioResps 0).2.1).2)
        have hp1' : s4.queue = p1 ++
            ((ttsErrorHandler drain o
              (audioLoop (llmCollectState o s4) o.audioResps 0).2.1).2).queue := by
          rw [← hp1]
          exact (audioLoop_queue (llmCollectState o s4) o.audioResps 0).symm
        have hc := inv_chain hp1' hs1 hp2 hs2
        refine ⟨p1 ++ p2, hc.1, ?_⟩
        have hs : startsOf ((Event.ttsStreamingStart ::
            (o.llmChunks.filter fun c => c ≠ "").map Event.llmStreamingChunk ++
            Event.responseSaved ::
              (audioLoop (llmCollectState o s4) o.audioResps 0).1) ++
            (ttsErrorHandler drain o
              (audioLoop (llmCollectState o s4) o.audioResps 0).2.1).1 ++
            (completionPhase drain
              (ttsErrorHandler drain o
                (audioLoop (llmCollectState o s4) o.audioResps 0).2.1).2).1) =
            startsOf (ttsErrorHandler drain o
              (audioLoop (llmCollectState o s4) o.audioResps 0).2.1).1 ++
            startsOf (completionPhase drain
              (ttsErrorHandler drain o
                (audioLoop (llmCollectState o s4) o.audioResps 0).2.1).2).1 := by
          simp [startsOf_cons, startsOf_append, startsOf_chunkEvs, startsOf_audioLoop]
        rw [hs]
        exact hc.2
      | hung =>
        have heq : ttsStreamPhase drain o s4 =
            ((Event.ttsStreamingStart ::
              (o.llmChunks.filter fun c => c ≠ "").map Event.llmStreamingChunk ++
              Event.responseSaved ::
                (audioLoop (llmCollectState o s4) o.audioResps 0).1) ++
             (ttsTimeoutHandler drain o
               (audioLoop (llmCollectState o s4) o.audioResps 0).2.1).1 ++
             (completionPhase drain
               (ttsTimeoutHandler drain o
                 (audioLoop (llmCollectState o s4) o.audioResps 0).2.1).2).1,
             (completionPhase drain
               (ttsTimeoutHandler drain o
                 (audioLoop (llmCollectState o s4) o.audioResps 0).2.1).2).2) := by
          simp [ttsStreamPhase, h1, hacc, hexit]
        rw [heq]
        obtain ⟨p1, hp1, hs1⟩ := ttsTimeoutHandler_inv hD o
          ((audioLoop (llmCollectState o s4) o.audioResps 0).2.1)
        obtain ⟨p2, hp2, hs2⟩ := completionPhase_inv hD
          ((ttsTimeoutHandler drain o
            (audioLoop (llmCollectState o s4) o.audioResps 0).2.1).2)
        have hp1' : s4.queue = p1 ++
            ((ttsTimeoutHandler drain o
              (audioLoop (llmCollectState o s4) o.audioResps 0).2.1).2).queue := by
          rw [← hp1]
          exact (audioLoop_queue (llmCollectState o s4) o.audioResps 0).symm
        have hc := inv_chain hp1' hs1 hp2 hs2
        refine ⟨p1 ++ p2, hc.1, ?_⟩
        have hs : startsOf ((Event.ttsStreamingStart ::
            (o.llmChunks.filter fun c => c ≠ "").map Event.llmStreamingChunk ++
            Event.responseSaved ::
              (audioLoop (llmCollectState o s4) o.audioResps 0).1) ++
            (ttsTimeoutHandler drain o
              (audioLoop (llmCollectState o s4) o.audioResps 0).2.1).1 ++
            (completionPhase drain
              (ttsTimeoutHandler drain o
                (audioLoop (llmCollectState o s4) o.audioResps 0).2.1).2).1) =
            startsOf (ttsTimeoutHandler drain o
              (audioLoop (llmCollectState o s4) o.audioResps 0).2.1).1 ++
            startsOf (completionPhase drain
              (ttsTimeoutHandler drain o
                (audioLoop (llmCollectState o s4) o.audioResps 0).2.1).2).1 := by
          simp [startsOf_cons, startsOf_append, startsOf_chunkEvs, startsOf_audioLoop]
        rw [hs]
        exact hc.2

theorem ttsPhase_inv {drain : SessionState → List Event × SessionState}
    (hD : DrainInv drain) (o : Oracle) (s3 : SessionState) :
    ∃ pre, s3.queue = pre ++ ((ttsPhase drain o s3).2).queue ∧
      (startsOf (ttsPhase drain o s3).1).Sublist (pre.map QueueItem.text) := by
  by_cases h1 : s3.ttsActive = true ∨ s3.responsePlayed = true ∨
      s3.bufferCleared = true ∨ s3.ttsCompleted = true
  · have heq : ttsPhase drain o s3 =
        drain { s3 with processing := false, currentQuery := none } := by
      simp [ttsPhase, h1]
    rw [heq]
    obtain ⟨pre, hp1, hp2⟩ := hD ({ s3 with
      processing := false, currentQuery := none } : SessionState)
    exact ⟨pre, hp1, hp2⟩
  · have heq : ttsPhase drain o s3 =
        ttsStreamPhase drain o { s3 with ttsActive := true } := by
      simp [ttsPhase, h1]
    rw [heq]
    obtain ⟨pre, hp1, hp2⟩ := ttsStreamPhase_inv hD o
      ({ s3 with ttsActive := true } : SessionState)
    exact ⟨pre, hp1, hp2⟩

theorem handleRun_inv {drain : SessionState → List Event × SessionState}
    (hD : DrainInv drain) (now : ℚ) (u : QueueItem) (o : Oracle) (s : SessionState) :
    ∃ pre, s.queue = pre ++ ((handleRun drain now u o s).2).queue ∧
      (startsOf (handleRun drain now u o s).1).Sublist
        (u.text :: pre.map QueueItem.text) := by
  by_cases hdup : is_duplicate_query s now u.text = true
  · have heq : handleRun drain now u o s = ([], s) := by
      simp [handleRun, hdup]
    rw [heq]
    exact ⟨[], by simp, by simp [startsOf]⟩
  · by_cases hex : cleanExact u.text = cleanExactLast s.lastTranscript ∧
        now - s.lastTime < 2
    · have hqe : ((handleRun drain now u o s).2).queue = [] := by
        simp [handleRun, hdup, hex, finallyPhase]
      have hse : startsOf (handleRun drain now u o s).1 = [] := by
        simp [handleRun, hdup, hex, startsOf_ite, startsOf_cons, startsOf_nil]
      refine ⟨s.queue, by rw [hqe]; simp, ?_⟩
      rw [hse]
      exact List.nil_sublist _
    · have heq : handleRun drain now u o s =
          ((if s.activeTtsTask = true then [Event.audioStop] else []) ++
           (if u.webSearch = true ∧ o.webConfigured = true then
              Event.webSearchStart ::
                (if o.webOk = true then [Event.webSearchComplete]
                 else [Event.webSearchError])
            else []) ++
           Event.llmStreamingStart u.text ::
             (ttsPhase drain o ({ s with
               responsePlayed := false, bufferCleared := false,
               ttsCompleted := false, ttsActive := false,
               responses := some "", currentQuery := some u.text,
               activeTtsTask := false, personaChanged := false,
               processing := true, lastTranscript := u.text,
               lastTime := now } : SessionState)).1,
           finallyPhase (ttsPhase drain o ({ s with
             responsePlayed := false, bufferCleared := false,
             ttsCompleted := false, ttsActive := false,
             responses := some "", currentQuery := some u.text,
             activeTtsTask := false, personaChanged := false,
             processing := true, lastTranscript := u.text,
             lastTime := now } : SessionState)).2) := by
        simp [handleRun, hdup, hex]
      rw [heq]
      obtain ⟨p, hp1, hp2⟩ := ttsPhase_inv hD o ({ s with
        responsePlayed := false, bufferCleared := false,
        ttsCompleted := false, ttsActive := false,
        responses := some "", currentQuery := some u.text,
        activeTtsTask := false, personaChanged := false,
        processing := true, lastTranscript := u.text,
        lastTime := now } : SessionState)
      have hp1' : s.queue = p ++ ((ttsPhase drain o ({ s with
          responsePlayed := false, bufferCleared := false,
          ttsCompleted := false, ttsActive := false,
          responses := some "", currentQuery := some u.text,
          activeTtsTask := false, personaChanged := false,
          processing := true, lastTranscript := u.text,
          lastTime := now } : SessionState)).2).queue := hp1
      refine ⟨s.queue, by simp [finallyPhase], ?_⟩
      have hse : startsOf
          ((if s.activeTtsTask = true then [Event.audioStop] else []) ++
           (if u.webSearch = true ∧ o.webConfigured = true then
              Event.webSearchStart ::
                (if o.webOk = true then [Event.webSearchComplete]
                 else [Event.webSearchError])
            else []) ++
           Event.llmStreamingStart u.text ::
             (ttsPhase drain o ({ s with
               responsePlayed := false, bufferCleared := false,
               ttsCompleted := false, ttsActive := false,
               responses := some "", currentQuery := some u.text,
               activeTtsTask := false, personaChanged := false,
               processing := true, lastTranscript := u.text,
               lastTime := now } : SessionState)).1) =
          u.text :: startsOf (ttsPhase drain o ({ s with
            responsePlayed := false, bufferCleared := false,
            ttsCompleted := false, ttsActive := false,
            responses := some "", currentQuery := some u.text,
            activeTtsTask := false, personaChanged := false,
            processing := true, lastTranscript := u.text,
            lastTime := now } : SessionState)).1 := by
        simp [startsOf_append, startsOf_ite, startsOf_cons, startsOf_nil]
      rw [hse]
      have hmap : (List.map QueueItem.text p).Sublist
          (List.map QueueItem.text s.queue) := by
        have hps := List.sublist_append_left p ((ttsPhase drain o ({ s with
          responsePlayed := false, bufferCleared := false,
          ttsCompleted := false, ttsActive := false,
          responses := some "", currentQuery := some u.text,
          activeTtsTask := false, personaChanged := false,
          processing := true, lastTranscript := u.text,
          lastTime := now } : SessionState)).2).queue
        rw [← hp1'] at hps
        exact hps.map QueueItem.text
      exact (hp2.trans hmap).cons₂ u.text

theorem drainQueue_inv (env : QueueItem → Oracle) (now : ℚ) (fuel : Nat) :
    DrainInv (drainQueue env now fuel) := by
  induction fuel with
  | zero =>
    intro s
    exact ⟨[], by simp [drainQueue], by simp [drainQueue, startsOf]⟩
  | succ n ih =>
    intro s
    cases hpc : s.processing with
    | true =>
      have heq : drainQueue env now (n + 1) s = ([], s) := by
        simp [drainQueue, hpc]
      rw [heq]
      exact ⟨[], by simp, by simp [startsOf]⟩
    | false =>
      cases hq : s.queue with
      | nil =>
        have heq : drainQueue env now (n + 1) s = ([], s) := by
          simp [drainQueue, hpc, hq]
        rw [heq]
        exact ⟨[], by simp [hq], by simp [startsOf]⟩
      | cons u rest =>
        by_cases hdup : is_duplicate_query { s with queue := rest } now u.text = true
        · simp only [hpc] at hdup
          by_cases hre : rest.isEmpty = true
          · have hr0 : rest = [] := by
              cases rest with
              | nil => rfl
              | cons v vr => simp [List.isEmpty] at hre
            subst hr0
            have heq : drainQueue env now (n + 1) s =
                ([], { s with queue := ([] : List QueueItem) }) := by
              simp [drainQueue, hpc, hq, hdup]
            rw [heq]
            refine ⟨[u], ?_, by simp [startsOf]⟩
            simp
          · have heq : drainQueue env now (n + 1) s =
                drainQueue env now n { s with queue := rest } := by
              simp [drainQueue, hpc, hq, hdup, hre]
            rw [heq]
            obtain ⟨p, hp1, hp2⟩ := ih { s with queue := rest }
            refine ⟨u :: p, ?_, ?_⟩
            · simpa using hp1
            · have hsub : (List.map QueueItem.text p).Sublist
                  (List.map QueueItem.text (u :: p)) := by
                simp
              simpa using hp2.trans hsub
        · simp only [hpc] at hdup
          have heq : drainQueue env now (n + 1) s =
              handleRun (drainQueue env now n) now u (env u)
                { s with queue := rest } := by
            simp [drainQueue, hpc, hq, hdup]
          rw [heq]
          obtain ⟨p, hp1, hp2⟩ := handleRun_inv ih now u (env u)
            ({ s with queue := rest } : SessionState)
          refine ⟨u :: p, ?_, ?_⟩
          · simpa using hp1
          · simpa using hp2

/-- Claim C3: FIFO drain invariant.  (i) Every fuelled run of
`process_session_queue` consumes a prefix of the session queue and the
`llm_streaming_start` frames it emits carry the texts of an order-preserving
selection of that prefix, so utterances enqueued as U1, U2, U3 start in that
order; (ii) a final transcript arriving while the session is processing is
appended at the tail of the queue and acknowledged with a `query_queued`
frame carrying the new queue length; (iii) a duplicate discovered at dequeue
is skipped and the drain moves on to the next item. -/
theorem c3_fifo_drain (env : QueueItem → Oracle) (now : ℚ) :
    (∀ fuel : Nat, DrainInv (drainQueue env now fuel)) ∧
    (∀ (fuel : Nat) (text persona : String) (w : Bool) (s : SessionState),
      s.processing = true →
      3 ≤ (pyStrip (pyStrip text)).length →
      is_duplicate_query s now (pyStrip text) = false →
      transcriptionStep fuel true now env text persona w s =
        (CallbackResult.enqueued, [Event.queryQueued (s.queue.length + 1)],
          { s with queue := s.queue ++ [⟨pyStrip text, persona, w⟩] })) ∧
    (∀ (fuel : Nat) (u : QueueItem) (rest : List QueueItem) (s : SessionState),
      s.processing = false → s.queue = u :: rest → rest ≠ [] →
      is_duplicate_query { s with queue := rest } now u.text = true →
      drainQueue env now (fuel + 1) s =
        drainQueue env now fuel { s with queue := rest }) := by
  refine ⟨drainQueue_inv env now, ?_, ?_⟩
  · intro fuel text persona w s hproc hlen hdup
    have hlt : ¬ ((pyStrip (pyStrip text)).length < 3) := by omega
    simp [transcriptionStep, hlt, hdup, hproc, List.length_append]
  · intro fuel u rest s hpc hq hne hdup
    cases rest with
    | nil => exact absurd rfl hne
    | cons v vr =>
      simp only [hpc] at hdup
      simp [drainQueue, hpc, hq, hdup]

/-- Witness for C3 at concrete inputs: a transcript enqueued while a session
processes lands at the tail with a `query_queued 1` frame, and a duplicate
head found at dequeue is skipped in favour of the next item. -/
theorem c3_fifo_drain_witness :
    (transcriptionStep 1 true 0
        (fun _ => ⟨["Hi"], [AudioResp.chunk true], true, true, true, true⟩)
        "hello world" "p" false { freshSession with processing := true } =
      (CallbackResult.enqueued, [Event.queryQueued 1],
        { freshSession with
          processing := true,
          queue := [⟨pyStrip "hello world", "p", false⟩] })) ∧
    (drainQueue (fun _ => ⟨["Hi"], [AudioResp.chunk true], true, true, true, true⟩)
        0 2 { freshSession with
          queue := [⟨"hello", "p", false⟩, ⟨"hello", "p", false⟩] } =
      drainQueue (fun _ => ⟨["Hi"], [AudioResp.chunk true], true, true, true, true⟩)
        0 1 { freshSession with
          queue := [⟨"hello", "p", false⟩] }) :=
  ⟨(c3_fifo_drain
      (fun _ => ⟨["Hi"], [AudioResp.chunk true], true, true, true, true⟩) 0).2.1
      1 "hello world" "p" false { freshSession with processing := true }
      rfl (by decide) (by decide),
   (c3_fifo_drain
      (fun _ => ⟨["Hi"], [AudioResp.chunk true], true, true, true, true⟩) 0).2.2
      1 ⟨"hello", "p", false⟩ [⟨"hello", "p", false⟩]
      { freshSession with
        queue := [⟨"hello", "p", false⟩, ⟨"hello", "p", false⟩] }
      rfl rfl (by decide) (by decide)⟩

end VoiceAgent
